import Mathlib

set_option maxHeartbeats 1000000

/- Shallow embedding of the gosuploader repository: the config types, the four
backend adapters (local, qiniu, aliyun, tencent), the uploader factory, and the
Go standard-library helpers they use (path/filepath, encoding/base64, and the
"%d" formatting of fmt).  External effects (filesystem and vendor SDK calls)
are modelled by oracle records passed as arguments; every operation also
returns the list of external calls it attempted, so "before any I/O" claims
are statements about that list. -/

/-- Go error values: errors.New leaves, fmt.Errorf wrapping, and opaque errors
produced by an SDK or OS call. -/
inductive Err where
  | msg (s : String)
  | wrap (p : String) (e : Err)
  | sdk (op : String)
deriving DecidableEq

/-- The spec's error taxonomy (section 7). -/
inductive ErrKind where
  | invalidInput
  | invalidConfig
  | unsupportedType
  | decodeError
  | backendFailure
  | notFound
  | otherKind
deriving DecidableEq

def invalidInputMsgs : List String :=
  ["file header cannot be nil", "content cannot be empty",
   "base64 content cannot be empty", "文件头不能为空", "文件名不能为空",
   "文件内容不能为空", "base64编码不能为空", "文件路径不能为空",
   "object key cannot be empty"]

def decodeWrapMsgs : List String :=
  ["failed to decode base64", "base64解码失败"]

/-- Mapping of the concrete error values built by the Go code onto the spec's
error kinds (modelled from the spec's section 7 taxonomy). -/
def classify : Err → ErrKind
  | .msg s =>
    if s ∈ invalidInputMsgs then .invalidInput
    else if s = "invalid config for uploader" then .invalidConfig
    else if s = "unsupported uploader type" then .unsupportedType
    else if s.data.take 17 = "file not exists: ".data then .notFound
    else .otherKind
  | .wrap p _ => if p ∈ decodeWrapMsgs then .decodeError else .backendFailure
  | .sdk _ => .backendFailure

/-- Externally visible calls an operation performs, in order. -/
inductive Eff where
  | mkdirAll (dir : String)
  | writeFile (p : String) (content : List Nat)
  | createFile (p : String)
  | copyTo (p : String) (content : List Nat)
  | statPath (p : String)
  | removePath (p : String)
  | netPut (key : String) (content : List Nat)
  | netDelete (key : String)
  | netZoneLookup
  | netBucketHead
deriving DecidableEq

/- ---------- Go standard library: fmt "%d" ---------- -/

def digitChar : Nat → Char
  | 0 => '0' | 1 => '1' | 2 => '2' | 3 => '3' | 4 => '4'
  | 5 => '5' | 6 => '6' | 7 => '7' | 8 => '8' | 9 => '9'
  | _ => '0'

def natCharsCore : Nat → Nat → List Char → List Char
  | 0, _, acc => acc
  | fuel + 1, n, acc =>
    if n < 10 then digitChar n :: acc
    else natCharsCore fuel (n / 10) (digitChar (n % 10) :: acc)

/-- Decimal rendering of a natural number (fmt.Sprintf "%d"). -/
def natStr (n : Nat) : String := String.mk (natCharsCore (n + 1) n [])

def padZero (w : Nat) (s : String) : String :=
  String.mk (List.replicate (w - s.data.length) '0' ++ s.data)

/-- Go time.Time.Format "2006/01/02": zero-padded year, month, day joined by
slashes. -/
def goDateFormat (y m d : Nat) : String :=
  padZero 4 (natStr y) ++ "/" ++ padZero 2 (natStr m) ++ "/" ++ padZero 2 (natStr d)

/- ---------- Go standard library: path/filepath (unix separator) ---------- -/

/-- Split a character list on '/' (the segment view used by Clean/Join/Rel). -/
def splitSlash : List Char → List (List Char)
  | [] => [[]]
  | c :: rest =>
    if c = '/' then [] :: splitSlash rest
    else
      match splitSlash rest with
      | [] => [[c]]
      | s :: ss => (c :: s) :: ss

def joinSegs : List (List Char) → List Char
  | [] => []
  | [s] => s
  | s :: s₂ :: ss => s ++ '/' :: joinSegs (s₂ :: ss)

/-- The element loop of Go filepath.Clean: drop empty and "." segments,
resolve ".." against the output stack (keeping leading ".." when the path is
relative, dropping it when rooted). -/
def cleanSegsAux (rooted : Bool) : List (List Char) → List (List Char) → List (List Char)
  | out, [] => out.reverse
  | out, s :: rest =>
    if s = [] ∨ s = ['.'] then cleanSegsAux rooted out rest
    else if s = ['.', '.'] then
      match out with
      | [] => if rooted then cleanSegsAux rooted [] rest else cleanSegsAux rooted [s] rest
      | o :: out' =>
        if o = ['.', '.'] then cleanSegsAux rooted (s :: o :: out') rest
        else cleanSegsAux rooted out' rest
    else cleanSegsAux rooted (s :: out) rest

/-- Go filepath.Clean. -/
def filepathClean (p : String) : String :=
  if p = "" then "."
  else
    let rooted := p.data.head? = some '/'
    let segs := cleanSegsAux (decide rooted) [] (splitSlash p.data)
    if rooted then String.mk ('/' :: joinSegs segs)
    else if segs = [] then "." else String.mk (joinSegs segs)

/-- Go filepath.Join: join the elements from the first non-empty one with
slashes, then Clean the result. -/
def filepathJoin (elems : List String) : String :=
  match elems.dropWhile (fun e => e = "") with
  | [] => ""
  | es => filepathClean (String.mk (joinSegs (es.map String.data)))

/-- Segment core of Go filepath.Rel: drop the common prefix; fail if the first
remaining base segment is ".."; otherwise climb with ".." and descend into the
remaining target segments. -/
def relSegs : List (List Char) → List (List Char) → Option (List (List Char))
  | [], ts => some ts
  | b :: bs, [] =>
    if b = ['.', '.'] then none else some ((b :: bs).map (fun _ => ['.', '.']))
  | b :: bs, t :: ts =>
    if b = t then relSegs bs ts
    else if b = ['.', '.'] then none
    else some ((b :: bs).map (fun _ => ['.', '.']) ++ t :: ts)

/-- Go filepath.Rel (none models the error return). -/
def filepathRel (basepath targpath : String) : Option String :=
  let base := filepathClean basepath
  let targ := filepathClean targpath
  if targ = base then some "."
  else
    let base' := if base = "." then "" else base
    let baseRooted := base'.data.head? = some '/'
    let targRooted := targ.data.head? = some '/'
    if (decide baseRooted) ≠ (decide targRooted) then none
    else
      let bs := if base' = "" then [] else splitSlash base'.data
      match relSegs bs (splitSlash targ.data) with
      | none => none
      | some rs => some (String.mk (joinSegs rs))

def extRevAux : List Char → List Char → Option (List Char)
  | [], _ => none
  | c :: rest, acc =>
    if c = '/' then none
    else if c = '.' then some ('.' :: acc)
    else extRevAux rest (c :: acc)

/-- Go filepath.Ext: the suffix beginning at the final dot of the last
element, empty if there is none. -/
def filepathExt (p : String) : String :=
  match extRevAux p.data.reverse [] with
  | some e => String.mk e
  | none => ""

/-- Go filepath.Base (unix). -/
def filepathBase (p : String) : String :=
  if p = "" then "."
  else
    let r := p.data.reverse.dropWhile (fun c => c == '/')
    if r = [] then "/"
    else String.mk ((r.takeWhile (fun c => c != '/')).reverse)

/-- Go strings.TrimSuffix. -/
def trimSuffix (s suf : String) : String :=
  if suf.data.isSuffixOf s.data then
    String.mk (s.data.take (s.data.length - suf.data.length))
  else s

/- ---------- Go standard library: encoding/base64 (StdEncoding) ---------- -/

def b64CharOf (n : Nat) : Char :=
  if n < 26 then Char.ofNat (65 + n)
  else if n < 52 then Char.ofNat (97 + (n - 26))
  else if n < 62 then Char.ofNat (48 + (n - 52))
  else if n = 62 then '+'
  else '/'

def b64Char (n : Nat) : Char := b64CharOf (n % 64)

def b64Index (c : Char) : Option Nat :=
  if 65 ≤ c.toNat ∧ c.toNat ≤ 90 then some (c.toNat - 65)
  else if 97 ≤ c.toNat ∧ c.toNat ≤ 122 then some (c.toNat - 97 + 26)
  else if 48 ≤ c.toNat ∧ c.toNat ≤ 57 then some (c.toNat - 48 + 52)
  else if c = '+' then some 62
  else if c = '/' then some 63
  else none

def b64EncodeChunks : List Nat → List Char
  | [] => []
  | [a] => [b64Char (a / 4), b64Char (a % 4 * 16), '=', '=']
  | [a, b] => [b64Char (a / 4), b64Char (a % 4 * 16 + b / 16), b64Char (b % 16 * 4), '=']
  | a :: b :: c :: rest =>
    b64Char (a / 4) :: b64Char (a % 4 * 16 + b / 16) ::
    b64Char (b % 16 * 4 + c / 64) :: b64Char (c % 64) :: b64EncodeChunks rest

/-- Go base64.StdEncoding.EncodeToString. -/
def b64Encode (bs : List Nat) : String := String.mk (b64EncodeChunks bs)

def b64Corrupt : Err := .sdk "illegal base64 data at input byte"

def b64DecodeChunks : List Char → Except Err (List Nat)
  | [] => .ok []
  | c₁ :: c₂ :: c₃ :: c₄ :: rest =>
    match b64Index c₁, b64Index c₂ with
    | some i₁, some i₂ =>
      if c₃ = '=' then
        if c₄ = '=' ∧ rest = [] then .ok [i₁ * 4 + i₂ / 16] else .error b64Corrupt
      else
        match b64Index c₃ with
        | some i₃ =>
          if c₄ = '=' then
            if rest = [] then .ok [i₁ * 4 + i₂ / 16, i₂ % 16 * 16 + i₃ / 4]
            else .error b64Corrupt
          else
            match b64Index c₄ with
            | some i₄ =>
              (b64DecodeChunks rest).map
                (fun tail => (i₁ * 4 + i₂ / 16) :: (i₂ % 16 * 16 + i₃ / 4) :: (i₃ % 4 * 64 + i₄) :: tail)
            | none => .error b64Corrupt
        | none => .error b64Corrupt
    | _, _ => .error b64Corrupt
  | _ => .error b64Corrupt

/-- Go base64.StdEncoding.DecodeString, which skips carriage returns and
newlines before decoding. -/
def b64DecodeString (s : String) : Except Err (List Nat) :=
  b64DecodeChunks (s.data.filter (fun c => !(c == '\r' || c == '\n')))

/- ---------- config package ---------- -/

structure LocalConfig where
  BasePath : String
deriving DecidableEq

structure QiniuConfig where
  AccessKey : String
  SecretKey : String
  Bucket : String
  Domain : String
  Region : String
deriving DecidableEq

structure AliyunConfig where
  Endpoint : String
  AccessKeyID : String
  AccessKeySecret : String
  BucketName : String
  Domain : String
deriving DecidableEq

structure TencentConfig where
  SecretID : String
  SecretKey : String
  BucketName : String
  Region : String
  Domain : String
deriving DecidableEq

/-- A multipart.FileHeader handle: name, the bytes its stream yields, and the
possible failures of Open and of reading the stream. -/
structure FileHeader where
  Filename : String
  bytes : List Nat
  openErr : Option Err
  readErr : Option Err
deriving DecidableEq

/-- Filesystem oracle: outcome of each os call the local backend makes. -/
structure FS where
  mkdirAllErr : String → Option Err
  writeFileErr : String → Option Err
  createErr : String → Option Err
  copyErr : Option Err
  statExists : String → Bool
  removeErr : String → Option Err

/-- Vendor storage oracle: outcome of put/delete calls, and the key the
service reports back (PutRet.Key for qiniu). -/
structure Net where
  putErr : String → List Nat → Option Err
  retKey : String → String
  deleteErr : String → Option Err

/- ---------- local backend ---------- -/

structure LocalUploader where
  basePath : String
deriving DecidableEq

namespace Local

/-- local.New: defaults BasePath to "storage/uploads"; performs no field
validation and takes no filesystem oracle (it touches no file). -/
def New (cfg : LocalConfig) : LocalUploader :=
  { basePath := if cfg.BasePath = "" then "storage/uploads" else cfg.BasePath }

/-- The unique file name `<base>_<unixNano><ext>` built in generateFilePath. -/
def uniqueName (originalName : String) (ts : Nat) : String :=
  let ext := filepathExt originalName
  let baseName := trimSuffix (filepathBase originalName) ext
  baseName ++ "_" ++ natStr ts ++ ext

def generateFilePath (u : LocalUploader) (originalName : String)
    (y m d ts : Nat) (fs : FS) : Except Err String × List Eff :=
  let dateDir := goDateFormat y m d
  let storageDir := filepathJoin [u.basePath, dateDir]
  match fs.mkdirAllErr storageDir with
  | some e => (.error (.wrap "failed to create storage directory" e), [.mkdirAll storageDir])
  | none => (.ok (filepathJoin [storageDir, uniqueName originalName ts]), [.mkdirAll storageDir])

def UploadBinary (u : LocalUploader) (filename : String) (content : List Nat)
    (y m d ts : Nat) (fs : FS) : Except Err String × List Eff :=
  if content.length = 0 then (.error (.msg "content cannot be empty"), [])
  else
    match generateFilePath u filename y m d ts fs with
    | (.error e, effs) => (.error (.wrap "failed to generate file path" e), effs)
    | (.ok filePath, effs) =>
      match fs.writeFileErr filePath with
      | some e => (.error (.wrap "failed to write file" e), effs ++ [.writeFile filePath content])
      | none =>
        match filepathRel u.basePath filePath with
        | none => (.ok filePath, effs ++ [.writeFile filePath content])
        | some relPath => (.ok relPath, effs ++ [.writeFile filePath content])

def UploadBase64 (u : LocalUploader) (filename base64Str : String)
    (y m d ts : Nat) (fs : FS) : Except Err String × List Eff :=
  if base64Str = "" then (.error (.msg "base64 content cannot be empty"), [])
  else
    match b64DecodeString base64Str with
    | .error e => (.error (.wrap "failed to decode base64" e), [])
    | .ok data => UploadBinary u filename data y m d ts fs

def UploadFile (u : LocalUploader) (file : Option FileHeader)
    (y m d ts : Nat) (fs : FS) : Except Err String × List Eff :=
  match file with
  | none => (.error (.msg "file header cannot be nil"), [])
  | some fh =>
    match fh.openErr with
    | some e => (.error (.wrap "failed to open uploaded file" e), [])
    | none =>
      match generateFilePath u fh.Filename y m d ts fs with
      | (.error e, effs) => (.error (.wrap "failed to generate file path" e), effs)
      | (.ok filePath, effs) =>
        match fs.createErr filePath with
        | some e =>
          (.error (.wrap "failed to create destination file" e), effs ++ [.createFile filePath])
        | none =>
          match fh.readErr.orElse (fun _ => fs.copyErr) with
          | some e => (.error (.wrap "failed to save file" e), effs ++ [.createFile filePath])
          | none =>
            match filepathRel u.basePath filePath with
            | none => (.ok filePath, effs ++ [.createFile filePath, .copyTo filePath fh.bytes])
            | some relPath => (.ok relPath, effs ++ [.createFile filePath, .copyTo filePath fh.bytes])

/-- local Delete: note there is no emptiness check on filePath. -/
def Delete (u : LocalUploader) (filePath : String) (fs : FS) : Except Err Unit × List Eff :=
  let fullPath := filepathJoin [u.basePath, filePath]
  if fs.statExists fullPath = false then
    (.error (.msg ("file not exists: " ++ fullPath)), [.statPath fullPath])
  else
    match fs.removeErr fullPath with
    | some e => (.error (.wrap "failed to delete file" e), [.statPath fullPath, .removePath fullPath])
    | none => (.ok (), [.statPath fullPath, .removePath fullPath])

end Local

/- ---------- qiniu backend ---------- -/

structure qiniuUploader where
  accessKey : String
  secretKey : String
  bucket : String
  domain : String
  regionZone : Option String
deriving DecidableEq

namespace Qiniu

/-- qiniu.New.  The source discards the error of storage.GetZone
(`Region, _ := storage.GetZone(...)`): only the region value survives. -/
def New (cfg : QiniuConfig) (zone : Except Err String) :
    Except Err qiniuUploader × List Eff :=
  if cfg.AccessKey = "" ∨ cfg.SecretKey = "" ∨ cfg.Bucket = "" then
    (.error (.msg "qiniu config is incomplete"), [])
  else
    (.ok { accessKey := cfg.AccessKey, secretKey := cfg.SecretKey,
           bucket := cfg.Bucket, domain := cfg.Domain,
           regionZone := match zone with | .ok r => some r | .error _ => none },
     [.netZoneLookup])

/-- generateUniqueKey: `<unixNano>_<uuid-first-8><ext>` (no date path, no base
name).  rand8 stands for uuid.New().String()[:8]. -/
def generateUniqueKey (originalName : String) (ts : Nat) (rand8 : String) : String :=
  natStr ts ++ "_" ++ rand8 ++ filepathExt originalName

def getFileURL (u : qiniuUploader) (key : String) : String :=
  "https://" ++ u.domain ++ "/" ++ key

def UploadBase64 (u : qiniuUploader) (fileName base64Code : String)
    (ts : Nat) (rand8 : String) (net : Net) : Except Err String × List Eff :=
  if fileName = "" then (.error (.msg "文件名不能为空"), [])
  else if base64Code = "" then (.error (.msg "base64编码不能为空"), [])
  else
    let key := generateUniqueKey fileName ts rand8
    match b64DecodeString base64Code with
    | .error e => (.error (.wrap "base64解码失败" e), [])
    | .ok data =>
      match net.putErr key data with
      | some e => (.error (.wrap "七牛云上传失败" e), [.netPut key data])
      | none => (.ok (getFileURL u (net.retKey key)), [.netPut key data])

def UploadBinary (u : qiniuUploader) (fileName : String) (content : List Nat)
    (ts : Nat) (rand8 : String) (net : Net) : Except Err String × List Eff :=
  if fileName = "" then (.error (.msg "文件名不能为空"), [])
  else if content.length = 0 then (.error (.msg "文件内容不能为空"), [])
  else
    let key := generateUniqueKey fileName ts rand8
    match net.putErr key content with
    | some e => (.error (.wrap "七牛云上传失败" e), [.netPut key content])
    | none => (.ok (getFileURL u (net.retKey key)), [.netPut key content])

def Delete (u : qiniuUploader) (filePath : String) (net : Net) :
    Except Err Unit × List Eff :=
  if filePath = "" then (.error (.msg "文件路径不能为空"), [])
  else
    match net.deleteErr filePath with
    | some e => (.error (.wrap "删除七牛云文件失败" e), [.netDelete filePath])
    | none => (.ok (), [.netDelete filePath])

def UploadFile (u : qiniuUploader) (fileHeader : Option FileHeader)
    (ts : Nat) (rand8 : String) (net : Net) : Except Err String × List Eff :=
  match fileHeader with
  | none => (.error (.msg "文件头不能为空"), [])
  | some fh =>
    match fh.openErr with
    | some e => (.error (.wrap "打开文件失败" e), [])
    | none =>
      match fh.readErr with
      | some e => (.error (.wrap "读取文件失败" e), [])
      | none => UploadBinary u fh.Filename fh.bytes ts rand8 net

end Qiniu

/- ---------- aliyun backend ---------- -/

/-- Construction-time SDK outcomes: oss.New and client.Bucket. -/
structure AliCtor where
  clientErr : Option Err
  bucketErr : Option Err

structure AliUploader where
  config : AliyunConfig
  endpoint : String
deriving DecidableEq

namespace Aliyun

def New (cfg : AliyunConfig) (sdk : AliCtor) : Except Err AliUploader :=
  if cfg.Endpoint = "" ∨ cfg.AccessKeyID = "" ∨ cfg.AccessKeySecret = "" ∨ cfg.BucketName = "" then
    .error (.msg "aliyun OSS configuration is incomplete")
  else
    match sdk.clientErr with
    | some e => .error (.wrap "failed to create OSS client" e)
    | none =>
      match sdk.bucketErr with
      | some e => .error (.wrap "failed to get bucket" e)
      | none =>
        let endpoint :=
          if cfg.Domain ≠ "" then "https://" ++ cfg.Domain
          else "https://" ++ cfg.BucketName ++ "." ++ cfg.Endpoint
        .ok { config := cfg, endpoint := endpoint }

def generateObjectKey (originalName : String) (y m d ts : Nat) : String :=
  let ext := filepathExt originalName
  let baseName := trimSuffix (filepathBase originalName) ext
  let datePath := goDateFormat y m d
  let uniqueNm := baseName ++ "_" ++ natStr ts ++ ext
  filepathJoin [datePath, uniqueNm]

def getFileURL (u : AliUploader) (objectKey : String) : String :=
  u.endpoint ++ "/" ++ objectKey

def UploadFile (u : AliUploader) (file : Option FileHeader) (y m d ts : Nat) (net : Net) :
    Except Err String × List Eff :=
  match file with
  | none => (.error (.msg "file header cannot be nil"), [])
  | some fh =>
    match fh.openErr with
    | some e => (.error (.wrap "failed to open uploaded file" e), [])
    | none =>
      let objectKey := generateObjectKey fh.Filename y m d ts
      match fh.readErr.orElse (fun _ => net.putErr objectKey fh.bytes) with
      | some e => (.error (.wrap "failed to upload file to OSS" e), [.netPut objectKey fh.bytes])
      | none => (.ok (getFileURL u objectKey), [.netPut objectKey fh.bytes])

def UploadBinary (u : AliUploader) (filename : String) (content : List Nat)
    (y m d ts : Nat) (net : Net) : Except Err String × List Eff :=
  if content.length = 0 then (.error (.msg "content cannot be empty"), [])
  else
    let objectKey := generateObjectKey filename y m d ts
    match net.putErr objectKey content with
    | some e => (.error (.wrap "failed to upload binary to OSS" e), [.netPut objectKey content])
    | none => (.ok (getFileURL u objectKey), [.netPut objectKey content])

def UploadBase64 (u : AliUploader) (filename base64Str : String)
    (y m d ts : Nat) (net : Net) : Except Err String × List Eff :=
  if base64Str = "" then (.error (.msg "base64 content cannot be empty"), [])
  else
    match b64DecodeString base64Str with
    | .error e => (.error (.wrap "failed to decode base64" e), [])
    | .ok data => UploadBinary u filename data y m d ts net

def Delete (u : AliUploader) (objectKey : String) (net : Net) : Except Err Unit × List Eff :=
  if objectKey = "" then (.error (.msg "object key cannot be empty"), [])
  else
    match net.deleteErr objectKey with
    | some e => (.error (.wrap "failed to delete OSS object" e), [.netDelete objectKey])
    | none => (.ok (), [.netDelete objectKey])

end Aliyun

/- ---------- tencent backend ---------- -/

/-- Construction-time SDK outcomes: url.Parse and client.Bucket.Head. -/
structure CosCtor where
  parseErr : Option Err
  headErr : Option Err

structure TencentUploader where
  config : TencentConfig
deriving DecidableEq

namespace Tencent

def New (cfg : TencentConfig) (sdk : CosCtor) : Except Err TencentUploader × List Eff :=
  if cfg.SecretID = "" ∨ cfg.SecretKey = "" ∨ cfg.BucketName = "" ∨ cfg.Region = "" then
    (.error (.msg "tencent COS configuration is incomplete"), [])
  else
    match sdk.parseErr with
    | some e => (.error (.wrap "failed to parse COS URL" e), [])
    | none =>
      match sdk.headErr with
      | some e => (.error (.wrap "failed to connect to COS bucket" e), [.netBucketHead])
      | none => (.ok { config := cfg }, [.netBucketHead])

def generateObjectKey (originalName : String) (y m d ts : Nat) : String :=
  let ext := filepathExt originalName
  let baseName := trimSuffix (filepathBase originalName) ext
  let datePath := goDateFormat y m d
  let uniqueNm := baseName ++ "_" ++ natStr ts ++ ext
  filepathJoin [datePath, uniqueNm]

def getFileURL (u : TencentUploader) (objectKey : String) : String :=
  if u.config.Domain ≠ "" then "https://" ++ u.config.Domain ++ "/" ++ objectKey
  else
    "https://" ++ u.config.BucketName ++ ".cos." ++ u.config.Region ++ ".myqcloud.com/" ++ objectKey

def UploadFile (u : TencentUploader) (file : Option FileHeader) (y m d ts : Nat) (net : Net) :
    Except Err String × List Eff :=
  match file with
  | none => (.error (.msg "file header cannot be nil"), [])
  | some fh =>
    match fh.openErr with
    | some e => (.error (.wrap "failed to open uploaded file" e), [])
    | none =>
      let objectKey := generateObjectKey fh.Filename y m d ts
      match fh.readErr.orElse (fun _ => net.putErr objectKey fh.bytes) with
      | some e => (.error (.wrap "failed to upload file to COS" e), [.netPut objectKey fh.bytes])
      | none => (.ok (getFileURL u objectKey), [.netPut objectKey fh.bytes])

def UploadBinary (u : TencentUploader) (filename : String) (content : List Nat)
    (y m d ts : Nat) (net : Net) : Except Err String × List Eff :=
  if content.length = 0 then (.error (.msg "content cannot be empty"), [])
  else
    let objectKey := generateObjectKey filename y m d ts
    match net.putErr objectKey content with
    | some e => (.error (.wrap "failed to upload binary to COS" e), [.netPut objectKey content])
    | none => (.ok (getFileURL u objectKey), [.netPut objectKey content])

def UploadBase64 (u : TencentUploader) (filename base64Str : String)
    (y m d ts : Nat) (net : Net) : Except Err String × List Eff :=
  if base64Str = "" then (.error (.msg "base64 content cannot be empty"), [])
  else
    match b64DecodeString base64Str with
    | .error e => (.error (.wrap "failed to decode base64" e), [])
    | .ok data => UploadBinary u filename data y m d ts net

def Delete (u : TencentUploader) (objectKey : String) (net : Net) : Except Err Unit × List Eff :=
  if objectKey = "" then (.error (.msg "object key cannot be empty"), [])
  else
    match net.deleteErr objectKey with
    | some e => (.error (.wrap "failed to delete COS object" e), [.netDelete objectKey])
    | none => (.ok (), [.netDelete objectKey])

end Tencent

/- ---------- uploader factory ---------- -/

/-- The opaque interface value handed to NewUploader: exactly one of the four
config variants, or some other value entirely. -/
inductive ConfigValue where
  | localCfg (c : LocalConfig)
  | qiniuCfg (c : QiniuConfig)
  | aliyunCfg (c : AliyunConfig)
  | tencentCfg (c : TencentConfig)
  | otherValue (descr : String)
deriving DecidableEq

inductive UploaderInst where
  | localU (u : LocalUploader)
  | qiniuU (u : qiniuUploader)
  | aliyunU (u : AliUploader)
  | tencentU (u : TencentUploader)
deriving DecidableEq

def ErrInvalidConfig : Err := .msg "invalid config for uploader"

def ErrUnsupportedType : Err := .msg "unsupported uploader type"

/-- NewUploader: switch on the kind string, narrow the config to the matching
variant, call that backend's constructor. -/
def NewUploader (t : String) (cfg : ConfigValue) (zone : Except Err String)
    (ali : AliCtor) (cos : CosCtor) : Except Err UploaderInst :=
  if t = "local" then
    match cfg with
    | .localCfg c => .ok (.localU (Local.New c))
    | _ => .error ErrInvalidConfig
  else if t = "qiniu" then
    match cfg with
    | .qiniuCfg c => (Qiniu.New c zone).1.map .qiniuU
    | _ => .error ErrInvalidConfig
  else if t = "aliyun" then
    match cfg with
    | .aliyunCfg c => (Aliyun.New c ali).map .aliyunU
    | _ => .error ErrInvalidConfig
  else if t = "tencent" then
    match cfg with
    | .tencentCfg c => (Tencent.New c cos).1.map .tencentU
    | _ => .error ErrInvalidConfig
  else .error ErrUnsupportedType

/- ---------- sample oracles used in concrete statements ---------- -/

def fsAllOk : FS :=
  { mkdirAllErr := fun _ => none, writeFileErr := fun _ => none,
    createErr := fun _ => none, copyErr := none,
    statExists := fun _ => true, removeErr := fun _ => none }

def fsMissing : FS := { fsAllOk with statExists := fun _ => false }

def fsMkdirBoom : FS := { fsAllOk with mkdirAllErr := fun _ => some (Err.sdk "mkdir") }

def fsWriteBoom : FS := { fsAllOk with writeFileErr := fun _ => some (Err.sdk "write") }

def netAllOk : Net :=
  { putErr := fun _ _ => none, retKey := fun k => k, deleteErr := fun _ => none }

def netPutBoom : Net := { netAllOk with putErr := fun _ _ => some (Err.sdk "put") }

def netDeleteBoom : Net := { netAllOk with deleteErr := fun _ => some (Err.sdk "del") }

def fsCreateBoom : FS := { fsAllOk with createErr := fun _ => some (Err.sdk "create") }

def fsCopyBoom : FS := { fsAllOk with copyErr := some (Err.sdk "copy") }

def fsRemoveBoom : FS := { fsAllOk with removeErr := fun _ => some (Err.sdk "rm") }

def fhOk : FileHeader := { Filename := "a.txt", bytes := [1], openErr := none, readErr := none }

def fhOpenBoom : FileHeader :=
  { Filename := "a.txt", bytes := [1], openErr := some (Err.sdk "open"), readErr := none }

def fhReadBoom : FileHeader :=
  { Filename := "a.txt", bytes := [1], openErr := none, readErr := some (Err.sdk "read") }

/-- An operation result that rejected its input: no external call was made and
the error is of the InvalidInput kind. -/
def rejectsInvalid {α : Type} (r : Except Err α × List Eff) : Prop :=
  r.2 = [] ∧ ∃ e, r.1 = Except.error e ∧ classify e = ErrKind.invalidInput

/-- A path segment Clean leaves untouched. -/
def goodSeg (s : List Char) : Prop := s ≠ [] ∧ s ≠ ['.'] ∧ s ≠ ['.', '.']

instance (s : List Char) : Decidable (goodSeg s) := by
  unfold goodSeg
  infer_instance

/-- A string whose slash-split segments are all good: relative, no empty or
dot segments, so Clean is the identity on it. -/
def goodPath (p : String) : Prop := ∀ s ∈ splitSlash p.data, goodSeg s

instance (p : String) : Decidable (goodPath p) := by
  unfold goodPath
  exact List.decidableBAll _ _

/-- Spec form (sections 3, 6) of a remote object key: date path, then the
original filename without its extension, an underscore, the nanosecond
timestamp, and the extension. -/
def specRemoteKeyOf (name : String) (y m d ts : Nat) : String :=
  goDateFormat y m d ++ "/" ++ trimSuffix name (filepathExt name) ++ "_" ++
    natStr ts ++ filepathExt name

/-- A key that starts with a date path, as the spec prescribes for every
remote backend. -/
def specDatePathShaped (key : String) : Prop :=
  ∃ y m d rest, key = goDateFormat y m d ++ "/" ++ rest

/- ---------- lemmas: strings and path segments ---------- -/

theorem strEq (s t : String) (h : s.data = t.data) : s = t :=
  congrArg String.mk h

theorem strAppendData (s t : String) : (s ++ t).data = s.data ++ t.data := by
  cases s; cases t; rfl

theorem strAppendAssoc (a b c : String) : a ++ b ++ c = a ++ (b ++ c) :=
  strEq _ _ (by simp only [strAppendData, List.append_assoc])

theorem strAppendEmpty (s : String) : s ++ "" = s :=
  strEq _ _ (by rw [strAppendData]; exact List.append_nil _)

theorem dataAppendSlash (a b : String) : (a ++ "/" ++ b).data = a.data ++ '/' :: b.data := by
  simp only [strAppendData, List.append_assoc]
  rfl

theorem splitSlash_cons_slash (rest : List Char) :
    splitSlash ('/' :: rest) = [] :: splitSlash rest := by
  simp [splitSlash]

theorem splitSlash_cons (c : Char) (rest : List Char) (hc : c ≠ '/') :
    splitSlash (c :: rest) =
      match splitSlash rest with
      | [] => [[c]]
      | s :: ss => (c :: s) :: ss := by
  simp [splitSlash, hc]

theorem splitSlash_ne_nil (l : List Char) : splitSlash l ≠ [] := by
  induction l with
  | nil => simp [splitSlash]
  | cons c rest ih =>
    by_cases hc : c = '/'
    · subst hc; rw [splitSlash_cons_slash]; simp
    · rw [splitSlash_cons _ _ hc]
      cases hs : splitSlash rest with
      | nil => exact absurd hs ih
      | cons s ss => simp

theorem splitSlash_append (x y : List Char) :
    splitSlash (x ++ '/' :: y) = splitSlash x ++ splitSlash y := by
  induction x with
  | nil => rw [List.nil_append, splitSlash_cons_slash]; rfl
  | cons c rest ih =>
    by_cases hc : c = '/'
    · subst hc
      rw [List.cons_append, splitSlash_cons_slash, splitSlash_cons_slash, ih, List.cons_append]
    · rw [List.cons_append, splitSlash_cons _ _ hc, splitSlash_cons _ _ hc, ih]
      cases hs : splitSlash rest with
      | nil => exact absurd hs (splitSlash_ne_nil rest)
      | cons s ss => rfl

theorem splitSlash_noSlash (l : List Char) (h : '/' ∉ l) : splitSlash l = [l] := by
  induction l with
  | nil => rfl
  | cons c rest ih =>
    simp only [List.mem_cons, not_or] at h
    have hc : c ≠ '/' := fun hh => h.1 hh.symm
    rw [splitSlash_cons _ _ hc, ih h.2]

theorem joinSegs_splitSlash (l : List Char) : joinSegs (splitSlash l) = l := by
  induction l with
  | nil => rfl
  | cons c rest ih =>
    by_cases hc : c = '/'
    · subst hc
      rw [splitSlash_cons_slash]
      cases hs : splitSlash rest with
      | nil => exact absurd hs (splitSlash_ne_nil rest)
      | cons s ss =>
        rw [hs] at ih
        show ([] : List Char) ++ '/' :: joinSegs (s :: ss) = '/' :: rest
        rw [ih]; rfl
    · rw [splitSlash_cons _ _ hc]
      cases hs : splitSlash rest with
      | nil => exact absurd hs (splitSlash_ne_nil rest)
      | cons s ss =>
        rw [hs] at ih
        cases ss with
        | nil =>
          show c :: s = c :: rest
          rw [show s = rest from ih]
        | cons s₂ ss₂ =>
          show (c :: s) ++ '/' :: joinSegs (s₂ :: ss₂) = c :: rest
          rw [← ih]; rfl

theorem mem_splitSlash_noSlash (l : List Char) (s : List Char)
    (hs : s ∈ splitSlash l) : '/' ∉ s := by
  induction l generalizing s with
  | nil =>
    simp only [splitSlash, List.mem_singleton] at hs
    subst hs; simp
  | cons c rest ih =>
    by_cases hc : c = '/'
    · subst hc
      rw [splitSlash_cons_slash] at hs
      rcases List.mem_cons.mp hs with h | h
      · subst h; simp
      · exact ih s h
    · rw [splitSlash_cons _ _ hc] at hs
      cases hsp : splitSlash rest with
      | nil => exact absurd hsp (splitSlash_ne_nil rest)
      | cons t ts =>
        rw [hsp] at hs
        replace hs : s ∈ (c :: t) :: ts := hs
        rcases List.mem_cons.mp hs with h | h
        · subst h
          have ht : '/' ∉ t := ih t (by rw [hsp]; exact List.mem_cons_self t ts)
          intro hmem
          rcases List.mem_cons.mp hmem with h' | h'
          · exact hc h'.symm
          · exact ht h'
        · exact ih s (by rw [hsp]; exact List.mem_cons_of_mem t h)

/- ---------- lemmas: clean paths ---------- -/

theorem cleanSegsAux_good (r : Bool) (out segs : List (List Char))
    (h : ∀ s ∈ segs, goodSeg s) : cleanSegsAux r out segs = out.reverse ++ segs := by
  induction segs generalizing out with
  | nil => simp [cleanSegsAux]
  | cons s rest ih =>
    obtain ⟨h1, h2, h3⟩ := h s (List.mem_cons_self s rest)
    rw [show cleanSegsAux r out (s :: rest) = cleanSegsAux r (s :: out) rest from by
      simp [cleanSegsAux, h1, h2, h3]]
    rw [ih (s :: out) (fun t ht => h t (List.mem_cons_of_mem s ht))]
    simp

theorem goodPath_ne_empty (p : String) (h : goodPath p) : p ≠ "" := by
  intro he
  subst he
  have := h [] (by simp [splitSlash])
  exact this.1 rfl

theorem goodPath_not_rooted (p : String) (h : goodPath p) : p.data.head? ≠ some '/' := by
  intro hr
  cases hd : p.data with
  | nil => rw [hd] at hr; simp at hr
  | cons c rest =>
    rw [hd] at hr
    simp only [List.head?_cons, Option.some_inj] at hr
    subst hr
    have := h [] (by rw [hd, splitSlash_cons_slash]; exact List.mem_cons_self _ _)
    exact this.1 rfl

theorem goodPath_ne_dot (p : String) (h : goodPath p) : p ≠ "." := by
  intro he
  subst he
  have := h ['.'] (by simp [splitSlash])
  exact this.2.1 rfl

theorem clean_good (p : String) (h : goodPath p) : filepathClean p = p := by
  have hne := goodPath_ne_empty p h
  have hnr := goodPath_not_rooted p h
  unfold filepathClean
  rw [if_neg hne]
  simp only
  rw [if_neg hnr]
  rw [show (decide (p.data.head? = some '/')) = false from by simpa using hnr]
  rw [cleanSegsAux_good false [] (splitSlash p.data) h]
  rw [List.reverse_nil, List.nil_append]
  rw [if_neg (splitSlash_ne_nil p.data)]
  rw [joinSegs_splitSlash]

theorem goodPath_append (a b : String) (ha : goodPath a) (hb : goodPath b) :
    goodPath (a ++ "/" ++ b) := by
  intro s hs
  rw [dataAppendSlash, splitSlash_append] at hs
  rcases List.mem_append.mp hs with h | h
  · exact ha s h
  · exact hb s h

theorem join2_good (a b : String) (ha : goodPath a) (hb : goodPath b) :
    filepathJoin [a, b] = a ++ "/" ++ b := by
  have hane := goodPath_ne_empty a ha
  unfold filepathJoin
  rw [show List.dropWhile (fun e => e = "") [a, b] = [a, b] from by
    simp [List.dropWhile, hane]]
  simp only [List.map]
  rw [show joinSegs [a.data, b.data] = a.data ++ '/' :: b.data from rfl]
  rw [show String.mk (a.data ++ '/' :: b.data) = a ++ "/" ++ b from
    (strEq _ _ (dataAppendSlash a b)).symm]
  exact clean_good _ (goodPath_append a b ha hb)

theorem relSegs_append (s t : List (List Char)) : relSegs s (s ++ t) = some t := by
  induction s with
  | nil => rfl
  | cons b bs ih =>
    show relSegs (b :: bs) (b :: (bs ++ t)) = some t
    rw [show relSegs (b :: bs) (b :: (bs ++ t)) = relSegs bs (bs ++ t) from by
      simp [relSegs]]
    exact ih

theorem data_mk (l : List Char) : (String.mk l).data = l := rfl

theorem rel_good (a b : String) (ha : goodPath a) (hb : goodPath b) :
    filepathRel a (a ++ "/" ++ b) = some b := by
  have hca := clean_good a ha
  have hct := clean_good _ (goodPath_append a b ha hb)
  have hne : a ++ "/" ++ b ≠ a := by
    intro he
    have := congrArg (fun s => s.data.length) he
    simp only [dataAppendSlash, List.length_append, List.length_cons] at this
    omega
  unfold filepathRel
  rw [hca, hct]
  rw [if_neg hne]
  simp only
  rw [if_neg (goodPath_ne_dot a ha)]
  have hr1 : (decide (a.data.head? = some '/')) = false := by
    simpa using goodPath_not_rooted a ha
  have hr2 : (decide ((a ++ "/" ++ b).data.head? = some '/')) = false := by
    simpa using goodPath_not_rooted _ (goodPath_append a b ha hb)
  rw [hr1, hr2]
  rw [if_neg (by simp)]
  rw [if_neg (goodPath_ne_empty a ha)]
  rw [dataAppendSlash, splitSlash_append, relSegs_append]
  show some (String.mk (joinSegs (splitSlash b.data))) = some b
  rw [show String.mk (joinSegs (splitSlash b.data)) = b from
    strEq _ _ (by rw [data_mk, joinSegs_splitSlash])]

/- ---------- lemmas: digits, date paths, generated names ---------- -/

theorem digitChar_lt (m : Nat) (h : m < 10) :
    digitChar m ≠ '/' ∧ digitChar m ≠ '.' := by
  interval_cases m <;> simp [digitChar]

theorem natCharsCore_chars (fuel n : Nat) (acc : List Char)
    (hacc : ∀ c ∈ acc, c ≠ '/' ∧ c ≠ '.') :
    ∀ c ∈ natCharsCore fuel n acc, c ≠ '/' ∧ c ≠ '.' := by
  induction fuel generalizing n acc with
  | zero => exact hacc
  | succ fuel ih =>
    intro c hc
    simp only [natCharsCore] at hc
    split at hc
    · rcases List.mem_cons.mp hc with h | h
      · subst h; exact digitChar_lt n (by omega)
      · exact hacc c h
    · refine ih (n / 10) _ ?_ c hc
      intro c' hc'
      rcases List.mem_cons.mp hc' with h | h
      · subst h; exact digitChar_lt (n % 10) (Nat.mod_lt _ (by omega))
      · exact hacc c' h

theorem natStr_chars (n : Nat) : ∀ c ∈ (natStr n).data, c ≠ '/' ∧ c ≠ '.' :=
  natCharsCore_chars (n + 1) n [] (by simp)

theorem natCharsCore_ne_nil (fuel n : Nat) (acc : List Char) :
    (natCharsCore (fuel + 1) n acc).length ≥ acc.length + 1 := by
  induction fuel generalizing n acc with
  | zero =>
    simp only [natCharsCore]
    split
    · simp
    · simp [natCharsCore]
  | succ fuel ih =>
    by_cases h : n < 10
    · rw [show natCharsCore (fuel + 1 + 1) n acc = digitChar n :: acc from by
        simp [natCharsCore, h]]
      simp
    · rw [show natCharsCore (fuel + 1 + 1) n acc =
          natCharsCore (fuel + 1) (n / 10) (digitChar (n % 10) :: acc) from by
        conv_lhs => rw [natCharsCore]
        rw [if_neg h]]
      have := ih (n / 10) (digitChar (n % 10) :: acc)
      simp only [List.length_cons] at this
      omega

theorem natStr_ne_nil (n : Nat) : (natStr n).data ≠ [] := by
  have := natCharsCore_ne_nil n n []
  intro h
  rw [show (natStr n).data = natCharsCore (n + 1) n [] from rfl] at h
  rw [h] at this
  simp at this

theorem padZero_chars (w : Nat) (s : String)
    (hs : ∀ c ∈ s.data, c ≠ '/' ∧ c ≠ '.') :
    ∀ c ∈ (padZero w s).data, c ≠ '/' ∧ c ≠ '.' := by
  intro c hc
  simp only [padZero, data_mk, List.mem_append] at hc
  rcases hc with h | h
  · rw [List.eq_of_mem_replicate h]
    simp
  · exact hs c h

theorem padZero_ne_nil (w : Nat) (s : String) (hs : s.data ≠ []) :
    (padZero w s).data ≠ [] := by
  simp only [padZero, data_mk]
  intro h
  rcases List.append_eq_nil.mp h with ⟨_, h2⟩
  exact hs h2

/-- A segment made only of characters that are neither '/' nor '.' is good. -/
theorem goodSeg_of_chars (s : List Char) (hne : s ≠ [])
    (hc : ∀ c ∈ s, c ≠ '/' ∧ c ≠ '.') : goodSeg s := by
  refine ⟨hne, ?_, ?_⟩
  · intro h
    subst h
    exact (hc '.' (by simp)).2 rfl
  · intro h
    subst h
    exact (hc '.' (by simp)).2 rfl

/-- A slash-free segment containing '_' is good. -/
theorem goodSeg_of_underscore (s : List Char) (hu : '_' ∈ s) : goodSeg s := by
  refine ⟨?_, ?_, ?_⟩ <;> intro h <;> subst h <;> simp at hu

theorem goodPath_goDateFormat (y m d : Nat) : goodPath (goDateFormat y m d) := by
  intro s hs
  have h4 : ∀ c ∈ (padZero 4 (natStr y)).data, c ≠ '/' ∧ c ≠ '.' :=
    padZero_chars 4 (natStr y) (natStr_chars y)
  have h2 : ∀ c ∈ (padZero 2 (natStr m)).data, c ≠ '/' ∧ c ≠ '.' :=
    padZero_chars 2 (natStr m) (natStr_chars m)
  have hdd : ∀ c ∈ (padZero 2 (natStr d)).data, c ≠ '/' ∧ c ≠ '.' :=
    padZero_chars 2 (natStr d) (natStr_chars d)
  have e4 : (padZero 4 (natStr y)).data ≠ [] := padZero_ne_nil _ _ (natStr_ne_nil y)
  have e2 : (padZero 2 (natStr m)).data ≠ [] := padZero_ne_nil _ _ (natStr_ne_nil m)
  have edd : (padZero 2 (natStr d)).data ≠ [] := padZero_ne_nil _ _ (natStr_ne_nil d)
  rw [show (goDateFormat y m d).data =
        (padZero 4 (natStr y)).data ++ '/' ::
          ((padZero 2 (natStr m)).data ++ '/' :: (padZero 2 (natStr d)).data) from by
      simp only [goDateFormat, strAppendData]
      simp [List.append_assoc]] at hs
  rw [splitSlash_append] at hs
  rw [splitSlash_append] at hs
  rw [splitSlash_noSlash _ (fun h => (h4 '/' h).1 rfl)] at hs
  rw [splitSlash_noSlash _ (fun h => (h2 '/' h).1 rfl)] at hs
  rw [splitSlash_noSlash _ (fun h => (hdd '/' h).1 rfl)] at hs
  simp only [List.mem_append, List.mem_singleton] at hs
  rcases hs with h | h | h <;> subst h
  · exact goodSeg_of_chars _ e4 h4
  · exact goodSeg_of_chars _ e2 h2
  · exact goodSeg_of_chars _ edd hdd

/- ---------- lemmas: Ext, Base, TrimSuffix, unique names ---------- -/

theorem extRevAux_noSlash (l : List Char) :
    ∀ acc r : List Char, '/' ∉ acc → extRevAux l acc = some r → '/' ∉ r := by
  induction l with
  | nil => intro acc r _ h; simp [extRevAux] at h
  | cons c rest ih =>
    intro acc r hacc h
    simp only [extRevAux] at h
    by_cases hc : c = '/'
    · rw [if_pos hc] at h; cases h
    · rw [if_neg hc] at h
      by_cases hd : c = '.'
      · rw [if_pos hd] at h
        injection h with h
        subst h
        intro hm
        rcases List.mem_cons.mp hm with h' | h'
        · cases h'
        · exact hacc h'
      · rw [if_neg hd] at h
        refine ih (c :: acc) r ?_ h
        intro hm
        rcases List.mem_cons.mp hm with h' | h'
        · exact hc h'.symm
        · exact hacc h'

theorem ext_noSlash (p : String) : '/' ∉ (filepathExt p).data := by
  unfold filepathExt
  cases h : extRevAux p.data.reverse [] with
  | none => simp
  | some e => simpa [data_mk] using extRevAux_noSlash _ [] e (by simp) h

theorem dropWhile_false (p : Char → Bool) (l : List Char)
    (h : ∀ c ∈ l, p c = false) : l.dropWhile p = l := by
  cases l with
  | nil => rfl
  | cons c rest => simp [List.dropWhile, h c (List.mem_cons_self c rest)]

theorem takeWhile_true (p : Char → Bool) (l : List Char)
    (h : ∀ c ∈ l, p c = true) : l.takeWhile p = l := by
  induction l with
  | nil => rfl
  | cons c rest ih =>
    rw [List.takeWhile_cons, h c (List.mem_cons_self c rest)]
    rw [ih (fun c' hc' => h c' (List.mem_cons_of_mem c hc'))]
    simp

theorem strNeEmptyData (p : String) (h : p ≠ "") : p.data ≠ [] := by
  intro hd
  exact h (strEq p "" hd)

theorem base_eq (p : String) (hs : '/' ∉ p.data) (hne : p ≠ "") : filepathBase p = p := by
  unfold filepathBase
  rw [if_neg hne]
  simp only
  rw [dropWhile_false _ _ (fun c hc => by
    simp only [beq_eq_false_iff_ne, ne_eq]
    intro he
    subst he
    exact hs (List.mem_reverse.mp hc))]
  rw [if_neg (by
    intro hr
    exact strNeEmptyData p hne (by simpa using congrArg List.reverse hr))]
  rw [takeWhile_true _ _ (fun c hc => by
    simp only [bne_iff_ne, ne_eq]
    intro he
    subst he
    exact hs (List.mem_reverse.mp hc))]
  exact strEq _ _ (by rw [data_mk, List.reverse_reverse])

theorem base_noSlash (p : String) (hs : '/' ∉ p.data) : '/' ∉ (filepathBase p).data := by
  by_cases hne : p = ""
  · subst hne
    rw [show filepathBase "" = "." from rfl]
    simp
  · rw [base_eq p hs hne]
    exact hs

theorem mem_trimSuffix (s suf : String) (c : Char) (h : c ∈ (trimSuffix s suf).data) :
    c ∈ s.data := by
  unfold trimSuffix at h
  split at h
  · rw [data_mk] at h
    exact List.take_subset _ _ h
  · exact h

theorem uniqueName_data (name : String) (ts : Nat) :
    (Local.uniqueName name ts).data =
      ((trimSuffix (filepathBase name) (filepathExt name)).data ++ ['_'] ++
        (natStr ts).data) ++ (filepathExt name).data := by
  show ((trimSuffix (filepathBase name) (filepathExt name) ++ "_" ++ natStr ts ++
    filepathExt name)).data = _
  simp only [strAppendData]

theorem uniqueName_noSlash (name : String) (ts : Nat) (h : '/' ∉ name.data) :
    '/' ∉ (Local.uniqueName name ts).data := by
  rw [uniqueName_data]
  intro hm
  simp only [List.mem_append, List.mem_singleton] at hm
  rcases hm with ((h1 | h2) | h3) | h4
  · exact base_noSlash name h (mem_trimSuffix _ _ _ h1)
  · cases h2
  · exact (natStr_chars ts '/' h3).1 rfl
  · exact ext_noSlash name h4

theorem uniqueName_goodPath (name : String) (ts : Nat) (h : '/' ∉ name.data) :
    goodPath (Local.uniqueName name ts) := by
  intro s hs
  rw [splitSlash_noSlash _ (uniqueName_noSlash name ts h)] at hs
  rw [List.mem_singleton] at hs
  subst hs
  apply goodSeg_of_underscore
  rw [uniqueName_data]
  simp

/- ---------- lemmas: base64 round trip ---------- -/

theorem b64Index_b64CharOf_all : ∀ n < 64, b64Index (b64CharOf n) = some n := by decide

theorem b64CharOf_ne_pad_all : ∀ n < 64, b64CharOf n ≠ '=' := by decide

theorem b64CharOf_not_crlf_all : ∀ n < 64, b64CharOf n ≠ '\r' ∧ b64CharOf n ≠ '\n' := by decide

theorem b64Index_b64Char (n : Nat) (h : n < 64) : b64Index (b64Char n) = some n := by
  rw [b64Char, Nat.mod_eq_of_lt h]
  exact b64Index_b64CharOf_all n h

theorem b64Char_ne_pad (n : Nat) : b64Char n ≠ '=' :=
  b64CharOf_ne_pad_all (n % 64) (Nat.mod_lt _ (by omega))

theorem b64Char_ne_cr (n : Nat) : (b64Char n == '\r') = false := by
  have h := b64CharOf_not_crlf_all (n % 64) (Nat.mod_lt _ (by omega))
  rw [b64Char]
  simp [h.1]

theorem b64Char_ne_lf (n : Nat) : (b64Char n == '\n') = false := by
  have h := b64CharOf_not_crlf_all (n % 64) (Nat.mod_lt _ (by omega))
  rw [b64Char]
  simp [h.2]

theorem filter_b64EncodeChunks : ∀ bs : List Nat,
    (b64EncodeChunks bs).filter (fun c => !(c == '\r' || c == '\n')) = b64EncodeChunks bs
  | [] => rfl
  | [a] => by
    simp [b64EncodeChunks, List.filter_cons, b64Char_ne_cr, b64Char_ne_lf]
  | [a, b] => by
    simp [b64EncodeChunks, List.filter_cons, b64Char_ne_cr, b64Char_ne_lf]
  | a :: b :: c :: rest => by
    simp only [b64EncodeChunks, List.filter_cons, b64Char_ne_cr, b64Char_ne_lf,
      Bool.or_false, Bool.not_false, if_true]
    rw [filter_b64EncodeChunks rest]

theorem b64DecodeChunks_encode : ∀ bs : List Nat, (∀ x ∈ bs, x < 256) →
    b64DecodeChunks (b64EncodeChunks bs) = .ok bs
  | [], _ => rfl
  | [a], h => by
    have ha : a < 256 := h a (by simp)
    have h1 := b64Index_b64Char (a / 4) (by omega)
    have h2 := b64Index_b64Char (a % 4 * 16) (by omega)
    show b64DecodeChunks [b64Char (a / 4), b64Char (a % 4 * 16), '=', '='] = .ok [a]
    simp only [b64DecodeChunks, h1, h2]
    simp
    omega
  | [a, b], h => by
    have ha : a < 256 := h a (by simp)
    have hb : b < 256 := h b (by simp)
    have h1 := b64Index_b64Char (a / 4) (by omega)
    have h2 := b64Index_b64Char (a % 4 * 16 + b / 16) (by omega)
    have h3 := b64Index_b64Char (b % 16 * 4) (by omega)
    have hne3 : b64Char (b % 16 * 4) ≠ '=' := b64Char_ne_pad _
    show b64DecodeChunks
        [b64Char (a / 4), b64Char (a % 4 * 16 + b / 16), b64Char (b % 16 * 4), '='] = .ok [a, b]
    simp only [b64DecodeChunks, h1, h2, h3, if_neg hne3]
    simp
    omega
  | a :: b :: c :: rest, h => by
    have ha : a < 256 := h a (by simp)
    have hb : b < 256 := h b (by simp)
    have hc : c < 256 := h c (by simp)
    have ih := b64DecodeChunks_encode rest (fun x hx => h x (by simp [hx]))
    have h1 := b64Index_b64Char (a / 4) (by omega)
    have h2 := b64Index_b64Char (a % 4 * 16 + b / 16) (by omega)
    have h3 := b64Index_b64Char (b % 16 * 4 + c / 64) (by omega)
    have h4 := b64Index_b64Char (c % 64) (Nat.mod_lt _ (by omega))
    have hne3 : b64Char (b % 16 * 4 + c / 64) ≠ '=' := b64Char_ne_pad _
    have hne4 : b64Char (c % 64) ≠ '=' := b64Char_ne_pad _
    show b64DecodeChunks
        (b64Char (a / 4) :: b64Char (a % 4 * 16 + b / 16) ::
          b64Char (b % 16 * 4 + c / 64) :: b64Char (c % 64) :: b64EncodeChunks rest) =
      .ok (a :: b :: c :: rest)
    simp only [b64DecodeChunks, h1, h2, h3, h4, if_neg hne3, if_neg hne4, ih, Except.map]
    simp
    omega

theorem b64DecodeString_encode (bs : List Nat) (h : ∀ x ∈ bs, x < 256) :
    b64DecodeString (b64Encode bs) = .ok bs := by
  unfold b64DecodeString b64Encode
  rw [data_mk, filter_b64EncodeChunks]
  exact b64DecodeChunks_encode bs h

theorem b64Encode_ne_empty (bs : List Nat) (h : bs ≠ []) : b64Encode bs ≠ "" := by
  intro he
  have hd : b64EncodeChunks bs = [] := by
    have := congrArg String.data he
    simpa [b64Encode, data_mk] using this
  cases bs with
  | nil => exact h rfl
  | cons a rest =>
    cases rest with
    | nil => simp [b64EncodeChunks] at hd
    | cons b rest₂ =>
      cases rest₂ with
      | nil => simp [b64EncodeChunks] at hd
      | cons c r₃ => simp [b64EncodeChunks] at hd

theorem classify_invalid (s : String) (h : s ∈ invalidInputMsgs) :
    classify (.msg s) = .invalidInput := by
  simp [classify, h]

/- ---------- claims ---------- -/

/-- C1 counterexample: the claim says every backend's Delete rejects an empty
locator with InvalidInput before touching the backend, but the Local backend
makes no such check: with an existing base directory, Delete "" stats and then
removes the base directory itself and returns ok. -/
theorem claim_C1_counterexample :
    Local.Delete ⟨"base"⟩ "" fsAllOk =
      (Except.ok (), [Eff.statPath "base", Eff.removePath "base"]) := rfl

/-- C1 (amended): the remote backends (qiniu, aliyun, tencent) reject an empty
locator with an InvalidInput error and no backend call; the Local backend
performs no emptiness check and goes straight to the filesystem, stat-ing the
path obtained by joining the empty locator onto its base path. -/
theorem claim_C1_amended :
    (∀ (u : qiniuUploader) (net : Net), rejectsInvalid (Qiniu.Delete u "" net)) ∧
    (∀ (u : AliUploader) (net : Net), rejectsInvalid (Aliyun.Delete u "" net)) ∧
    (∀ (u : TencentUploader) (net : Net), rejectsInvalid (Tencent.Delete u "" net)) ∧
    (∀ (u : LocalUploader) (fs : FS),
      (Local.Delete u "" fs).2.head? = some (Eff.statPath (filepathJoin [u.basePath, ""]))) := by
  refine ⟨?_, ?_, ?_, ?_⟩
  · exact fun u net => ⟨rfl, .msg "文件路径不能为空", rfl, classify_invalid _ (by decide)⟩
  · exact fun u net => ⟨rfl, .msg "object key cannot be empty", rfl, classify_invalid _ (by decide)⟩
  · exact fun u net => ⟨rfl, .msg "object key cannot be empty", rfl, classify_invalid _ (by decide)⟩
  · intro u fs
    simp only [Local.Delete]
    split
    · rfl
    · split <;> rfl

/-- C7 counterexample: Local Delete with the empty locator is not rejected
with InvalidInput before I/O: it stats the filesystem and reports a NotFound
style error when the base path does not exist. -/
theorem claim_C7_counterexample :
    Local.Delete ⟨"storage/uploads"⟩ "" fsMissing =
      (Except.error (Err.msg "file not exists: storage/uploads"),
       [Eff.statPath "storage/uploads"]) ∧
    classify (Err.msg "file not exists: storage/uploads") ≠ ErrKind.invalidInput :=
  ⟨rfl, by decide⟩

/-- C7 (amended): UploadFile, UploadBinary and UploadBase64 on all four
backends, and Delete on the three remote backends, reject their documented
empty or nil inputs with an InvalidInput error and an empty effect list (no
directory created, no file written, no network call); the exception is the
Local backend's Delete, which does not check for an empty locator (see the
counterexample). -/
theorem claim_C7_amended :
    (∀ (u : LocalUploader) (y m d ts : Nat) (fs : FS),
      rejectsInvalid (Local.UploadFile u none y m d ts fs)) ∧
    (∀ (u : LocalUploader) (nm : String) (y m d ts : Nat) (fs : FS),
      rejectsInvalid (Local.UploadBinary u nm [] y m d ts fs)) ∧
    (∀ (u : LocalUploader) (nm : String) (y m d ts : Nat) (fs : FS),
      rejectsInvalid (Local.UploadBase64 u nm "" y m d ts fs)) ∧
    (∀ (u : qiniuUploader) (ts : Nat) (r8 : String) (net : Net),
      rejectsInvalid (Qiniu.UploadFile u none ts r8 net)) ∧
    (∀ (u : qiniuUploader) (nm : String) (ts : Nat) (r8 : String) (net : Net),
      rejectsInvalid (Qiniu.UploadBinary u nm [] ts r8 net)) ∧
    (∀ (u : qiniuUploader) (nm : String) (ts : Nat) (r8 : String) (net : Net),
      rejectsInvalid (Qiniu.UploadBase64 u nm "" ts r8 net)) ∧
    (∀ (u : qiniuUploader) (net : Net), rejectsInvalid (Qiniu.Delete u "" net)) ∧
    (∀ (u : AliUploader) (y m d ts : Nat) (net : Net),
      rejectsInvalid (Aliyun.UploadFile u none y m d ts net)) ∧
    (∀ (u : AliUploader) (nm : String) (y m d ts : Nat) (net : Net),
      rejectsInvalid (Aliyun.UploadBinary u nm [] y m d ts net)) ∧
    (∀ (u : AliUploader) (nm : String) (y m d ts : Nat) (net : Net),
      rejectsInvalid (Aliyun.UploadBase64 u nm "" y m d ts net)) ∧
    (∀ (u : AliUploader) (net : Net), rejectsInvalid (Aliyun.Delete u "" net)) ∧
    (∀ (u : TencentUploader) (y m d ts : Nat) (net : Net),
      rejectsInvalid (Tencent.UploadFile u none y m d ts net)) ∧
    (∀ (u : TencentUploader) (nm : String) (y m d ts : Nat) (net : Net),
      rejectsInvalid (Tencent.UploadBinary u nm [] y m d ts net)) ∧
    (∀ (u : TencentUploader) (nm : String) (y m d ts : Nat) (net : Net),
      rejectsInvalid (Tencent.UploadBase64 u nm "" y m d ts net)) ∧
    (∀ (u : TencentUploader) (net : Net), rejectsInvalid (Tencent.Delete u "" net)) := by
  refine ⟨?_, ?_, ?_, ?_, ?_, ?_, ?_, ?_, ?_, ?_, ?_, ?_, ?_, ?_, ?_⟩
  · exact fun u y m d ts fs =>
      ⟨rfl, .msg "file header cannot be nil", rfl, classify_invalid _ (by decide)⟩
  · exact fun u nm y m d ts fs =>
      ⟨rfl, .msg "content cannot be empty", rfl, classify_invalid _ (by decide)⟩
  · exact fun u nm y m d ts fs =>
      ⟨rfl, .msg "base64 content cannot be empty", rfl, classify_invalid _ (by decide)⟩
  · exact fun u ts r8 net =>
      ⟨rfl, .msg "文件头不能为空", rfl, classify_invalid _ (by decide)⟩
  · intro u nm ts r8 net
    by_cases h : nm = ""
    · subst h
      exact ⟨rfl, .msg "文件名不能为空", rfl, classify_invalid _ (by decide)⟩
    · refine ⟨?_, .msg "文件内容不能为空", ?_, classify_invalid _ (by decide)⟩ <;>
        simp [Qiniu.UploadBinary, h]
  · intro u nm ts r8 net
    by_cases h : nm = ""
    · subst h
      exact ⟨rfl, .msg "文件名不能为空", rfl, classify_invalid _ (by decide)⟩
    · refine ⟨?_, .msg "base64编码不能为空", ?_, classify_invalid _ (by decide)⟩ <;>
        simp [Qiniu.UploadBase64, h]
  · exact fun u net => ⟨rfl, .msg "文件路径不能为空", rfl, classify_invalid _ (by decide)⟩
  · exact fun u y m d ts net =>
      ⟨rfl, .msg "file header cannot be nil", rfl, classify_invalid _ (by decide)⟩
  · exact fun u nm y m d ts net =>
      ⟨rfl, .msg "content cannot be empty", rfl, classify_invalid _ (by decide)⟩
  · exact fun u nm y m d ts net =>
      ⟨rfl, .msg "base64 content cannot be empty", rfl, classify_invalid _ (by decide)⟩
  · exact fun u net => ⟨rfl, .msg "object key cannot be empty", rfl, classify_invalid _ (by decide)⟩
  · exact fun u y m d ts net =>
      ⟨rfl, .msg "file header cannot be nil", rfl, classify_invalid _ (by decide)⟩
  · exact fun u nm y m d ts net =>
      ⟨rfl, .msg "content cannot be empty", rfl, classify_invalid _ (by decide)⟩
  · exact fun u nm y m d ts net =>
      ⟨rfl, .msg "base64 content cannot be empty", rfl, classify_invalid _ (by decide)⟩
  · exact fun u net => ⟨rfl, .msg "object key cannot be empty", rfl, classify_invalid _ (by decide)⟩

/-- C9: NewUploader with the Local kind and a Local config variant never
fails, for every field value: local.New validates nothing and takes no
filesystem oracle, so BasePath problems can only surface on later calls. -/
theorem claim_C9 :
    ∀ (c : LocalConfig) (zone : Except Err String) (ali : AliCtor) (cos : CosCtor),
      ∃ u : LocalUploader,
        NewUploader "local" (.localCfg c) zone ali cos = .ok (.localU u) ∧
        u.basePath = (if c.BasePath = "" then "storage/uploads" else c.BasePath) := by
  intro c zone ali cos
  exact ⟨Local.New c, rfl, rfl⟩

/-- C6: NewUploader fails with InvalidConfig when the kind is recognized but
the config is not the matching variant, fails with UnsupportedType for any
unrecognized kind, and for a matching variant calls that backend's constructor
and returns its result unchanged. -/
theorem claim_C6 :
    (∀ (cfg : ConfigValue) (zone : Except Err String) (ali : AliCtor) (cos : CosCtor),
      (∀ c, cfg ≠ ConfigValue.localCfg c) →
      NewUploader "local" cfg zone ali cos = .error ErrInvalidConfig) ∧
    (∀ (cfg : ConfigValue) (zone : Except Err String) (ali : AliCtor) (cos : CosCtor),
      (∀ c, cfg ≠ ConfigValue.qiniuCfg c) →
      NewUploader "qiniu" cfg zone ali cos = .error ErrInvalidConfig) ∧
    (∀ (cfg : ConfigValue) (zone : Except Err String) (ali : AliCtor) (cos : CosCtor),
      (∀ c, cfg ≠ ConfigValue.aliyunCfg c) →
      NewUploader "aliyun" cfg zone ali cos = .error ErrInvalidConfig) ∧
    (∀ (cfg : ConfigValue) (zone : Except Err String) (ali : AliCtor) (cos : CosCtor),
      (∀ c, cfg ≠ ConfigValue.tencentCfg c) →
      NewUploader "tencent" cfg zone ali cos = .error ErrInvalidConfig) ∧
    (∀ (t : String) (cfg : ConfigValue) (zone : Except Err String) (ali : AliCtor)
        (cos : CosCtor), t ≠ "local" → t ≠ "qiniu" → t ≠ "aliyun" → t ≠ "tencent" →
      NewUploader t cfg zone ali cos = .error ErrUnsupportedType) ∧
    (∀ (c : LocalConfig) (zone : Except Err String) (ali : AliCtor) (cos : CosCtor),
      NewUploader "local" (.localCfg c) zone ali cos = .ok (.localU (Local.New c))) ∧
    (∀ (c : QiniuConfig) (zone : Except Err String) (ali : AliCtor) (cos : CosCtor),
      NewUploader "qiniu" (.qiniuCfg c) zone ali cos = (Qiniu.New c zone).1.map .qiniuU) ∧
    (∀ (c : AliyunConfig) (zone : Except Err String) (ali : AliCtor) (cos : CosCtor),
      NewUploader "aliyun" (.aliyunCfg c) zone ali cos = (Aliyun.New c ali).map .aliyunU) ∧
    (∀ (c : TencentConfig) (zone : Except Err String) (ali : AliCtor) (cos : CosCtor),
      NewUploader "tencent" (.tencentCfg c) zone ali cos = (Tencent.New c cos).1.map .tencentU) ∧
    classify ErrInvalidConfig = ErrKind.invalidConfig ∧
    classify ErrUnsupportedType = ErrKind.unsupportedType := by
  refine ⟨?_, ?_, ?_, ?_, ?_, ?_, ?_, ?_, ?_, by decide, by decide⟩
  · intro cfg zone ali cos h
    cases cfg with
    | localCfg c => exact absurd rfl (h c)
    | qiniuCfg c => rfl
    | aliyunCfg c => rfl
    | tencentCfg c => rfl
    | otherValue s => rfl
  · intro cfg zone ali cos h
    cases cfg with
    | qiniuCfg c => exact absurd rfl (h c)
    | localCfg c => rfl
    | aliyunCfg c => rfl
    | tencentCfg c => rfl
    | otherValue s => rfl
  · intro cfg zone ali cos h
    cases cfg with
    | aliyunCfg c => exact absurd rfl (h c)
    | localCfg c => rfl
    | qiniuCfg c => rfl
    | tencentCfg c => rfl
    | otherValue s => rfl
  · intro cfg zone ali cos h
    cases cfg with
    | tencentCfg c => exact absurd rfl (h c)
    | localCfg c => rfl
    | qiniuCfg c => rfl
    | aliyunCfg c => rfl
    | otherValue s => rfl
  · intro t cfg zone ali cos h1 h2 h3 h4
    simp [NewUploader, h1, h2, h3, h4]
  · intro c zone ali cos; rfl
  · intro c zone ali cos; rfl
  · intro c zone ali cos; rfl
  · intro c zone ali cos; rfl

/-- C6 witness: concrete instances of each clause of claim_C6. -/
theorem claim_C6_witness :
    NewUploader "local" (.qiniuCfg ⟨"", "", "", "", ""⟩) (Except.error (Err.sdk "z"))
      ⟨none, none⟩ ⟨none, none⟩ = .error ErrInvalidConfig ∧
    NewUploader "qiniu" (.localCfg ⟨""⟩) (Except.error (Err.sdk "z"))
      ⟨none, none⟩ ⟨none, none⟩ = .error ErrInvalidConfig ∧
    NewUploader "aliyun" (.localCfg ⟨""⟩) (Except.error (Err.sdk "z"))
      ⟨none, none⟩ ⟨none, none⟩ = .error ErrInvalidConfig ∧
    NewUploader "tencent" (.localCfg ⟨""⟩) (Except.error (Err.sdk "z"))
      ⟨none, none⟩ ⟨none, none⟩ = .error ErrInvalidConfig ∧
    NewUploader "s3" (.localCfg ⟨""⟩) (Except.error (Err.sdk "z"))
      ⟨none, none⟩ ⟨none, none⟩ = .error ErrUnsupportedType ∧
    NewUploader "local" (.localCfg ⟨"p"⟩) (Except.error (Err.sdk "z"))
      ⟨none, none⟩ ⟨none, none⟩ = .ok (.localU (Local.New ⟨"p"⟩)) ∧
    NewUploader "qiniu" (.qiniuCfg ⟨"ak", "sk", "bkt", "d", ""⟩) (Except.ok "z0")
      ⟨none, none⟩ ⟨none, none⟩ =
      (Qiniu.New ⟨"ak", "sk", "bkt", "d", ""⟩ (Except.ok "z0")).1.map .qiniuU :=
  ⟨claim_C6.1 _ _ _ _ (fun c h => ConfigValue.noConfusion h),
   claim_C6.2.1 _ _ _ _ (fun c h => ConfigValue.noConfusion h),
   claim_C6.2.2.1 _ _ _ _ (fun c h => ConfigValue.noConfusion h),
   claim_C6.2.2.2.1 _ _ _ _ (fun c h => ConfigValue.noConfusion h),
   claim_C6.2.2.2.2.1 "s3" _ _ _ _ (by decide) (by decide) (by decide) (by decide),
   claim_C6.2.2.2.2.2.1 _ _ _ _,
   claim_C6.2.2.2.2.2.2.1 _ _ _ _⟩

/-- C5 counterexample: qiniu.New swallows the error of the storage.GetZone SDK
call made during construction (`Region, _ := storage.GetZone(...)`): with a
complete config and a failing zone lookup, construction still returns ok, so
not every SDK error during construction is returned to the caller. -/
theorem claim_C5_counterexample :
    (Qiniu.New ⟨"ak", "sk", "bkt", "cdn.example.com", ""⟩
        (Except.error (Err.sdk "storage.GetZone"))).1 =
      Except.ok ⟨"ak", "sk", "bkt", "cdn.example.com", none⟩ := rfl

/-- C5 (amended): with the single exception of qiniu.New's region lookup,
whose error is discarded, every error from an underlying filesystem or SDK
call made during construction, upload, or delete is returned wrapped to the
immediate caller with no retry: this covers, for every backend, the open,
read/copy, create, mkdir, write, put, decode, region/bucket/url construction
and delete call sites of the source. -/
theorem claim_C5_amended :
    (∀ (u : LocalUploader) (nm : String) (content : List Nat) (y m d ts : Nat)
        (fs : FS) (e : Err), content ≠ [] →
      fs.mkdirAllErr (filepathJoin [u.basePath, goDateFormat y m d]) = some e →
      Local.UploadBinary u nm content y m d ts fs =
        (Except.error (.wrap "failed to generate file path"
            (.wrap "failed to create storage directory" e)),
         [Eff.mkdirAll (filepathJoin [u.basePath, goDateFormat y m d])])) ∧
    (∀ (u : LocalUploader) (nm : String) (content : List Nat) (y m d ts : Nat)
        (fs : FS) (e : Err), content ≠ [] →
      fs.mkdirAllErr (filepathJoin [u.basePath, goDateFormat y m d]) = none →
      fs.writeFileErr (filepathJoin [filepathJoin [u.basePath, goDateFormat y m d],
        Local.uniqueName nm ts]) = some e →
      (Local.UploadBinary u nm content y m d ts fs).1 =
        Except.error (.wrap "failed to write file" e)) ∧
    (∀ (u : qiniuUploader) (nm : String) (content : List Nat) (ts : Nat) (r8 : String)
        (net : Net) (e : Err), nm ≠ "" → content ≠ [] →
      net.putErr (Qiniu.generateUniqueKey nm ts r8) content = some e →
      Qiniu.UploadBinary u nm content ts r8 net =
        (Except.error (.wrap "七牛云上传失败" e),
         [Eff.netPut (Qiniu.generateUniqueKey nm ts r8) content])) ∧
    (∀ (cfg : AliyunConfig) (sdk : AliCtor) (e : Err),
      cfg.Endpoint ≠ "" → cfg.AccessKeyID ≠ "" → cfg.AccessKeySecret ≠ "" →
      cfg.BucketName ≠ "" → sdk.clientErr = some e →
      Aliyun.New cfg sdk = .error (.wrap "failed to create OSS client" e)) ∧
    (∀ (u : LocalUploader) (fh : FileHeader) (y m d ts : Nat) (fs : FS) (e : Err),
      fh.openErr = some e →
      Local.UploadFile u (some fh) y m d ts fs =
        (Except.error (.wrap "failed to open uploaded file" e), [])) ∧
    (∀ (u : LocalUploader) (fh : FileHeader) (y m d ts : Nat) (fs : FS) (e : Err),
      fh.openErr = none →
      fs.mkdirAllErr (filepathJoin [u.basePath, goDateFormat y m d]) = some e →
      Local.UploadFile u (some fh) y m d ts fs =
        (Except.error (.wrap "failed to generate file path"
            (.wrap "failed to create storage directory" e)),
         [Eff.mkdirAll (filepathJoin [u.basePath, goDateFormat y m d])])) ∧
    (∀ (u : LocalUploader) (fh : FileHeader) (y m d ts : Nat) (fs : FS) (e : Err),
      fh.openErr = none →
      fs.mkdirAllErr (filepathJoin [u.basePath, goDateFormat y m d]) = none →
      fs.createErr (filepathJoin [filepathJoin [u.basePath, goDateFormat y m d],
        Local.uniqueName fh.Filename ts]) = some e →
      (Local.UploadFile u (some fh) y m d ts fs).1 =
        Except.error (.wrap "failed to create destination file" e)) ∧
    (∀ (u : LocalUploader) (fh : FileHeader) (y m d ts : Nat) (fs : FS) (e : Err),
      fh.openErr = none →
      fs.mkdirAllErr (filepathJoin [u.basePath, goDateFormat y m d]) = none →
      fs.createErr (filepathJoin [filepathJoin [u.basePath, goDateFormat y m d],
        Local.uniqueName fh.Filename ts]) = none →
      fh.readErr.orElse (fun _ => fs.copyErr) = some e →
      (Local.UploadFile u (some fh) y m d ts fs).1 =
        Except.error (.wrap "failed to save file" e)) ∧
    (∀ (u : LocalUploader) (fn s : String) (y m d ts : Nat) (fs : FS) (e : Err),
      s ≠ "" → b64DecodeString s = .error e →
      Local.UploadBase64 u fn s y m d ts fs =
        (Except.error (.wrap "failed to decode base64" e), [])) ∧
    (∀ (u : LocalUploader) (p : String) (fs : FS) (e : Err),
      fs.statExists (filepathJoin [u.basePath, p]) = true →
      fs.removeErr (filepathJoin [u.basePath, p]) = some e →
      Local.Delete u p fs =
        (Except.error (.wrap "failed to delete file" e),
         [Eff.statPath (filepathJoin [u.basePath, p]),
          Eff.removePath (filepathJoin [u.basePath, p])])) ∧
    (∀ (u : qiniuUploader) (fh : FileHeader) (ts : Nat) (r8 : String) (net : Net) (e : Err),
      fh.openErr = some e →
      Qiniu.UploadFile u (some fh) ts r8 net =
        (Except.error (.wrap "打开文件失败" e), [])) ∧
    (∀ (u : qiniuUploader) (fh : FileHeader) (ts : Nat) (r8 : String) (net : Net) (e : Err),
      fh.openErr = none → fh.readErr = some e →
      Qiniu.UploadFile u (some fh) ts r8 net =
        (Except.error (.wrap "读取文件失败" e), [])) ∧
    (∀ (u : qiniuUploader) (fn s : String) (ts : Nat) (r8 : String) (net : Net) (e : Err),
      fn ≠ "" → s ≠ "" → b64DecodeString s = .error e →
      Qiniu.UploadBase64 u fn s ts r8 net =
        (Except.error (.wrap "base64解码失败" e), [])) ∧
    (∀ (u : qiniuUploader) (fn s : String) (bs : List Nat) (ts : Nat) (r8 : String)
        (net : Net) (e : Err),
      fn ≠ "" → s ≠ "" → b64DecodeString s = .ok bs →
      net.putErr (Qiniu.generateUniqueKey fn ts r8) bs = some e →
      Qiniu.UploadBase64 u fn s ts r8 net =
        (Except.error (.wrap "七牛云上传失败" e),
         [Eff.netPut (Qiniu.generateUniqueKey fn ts r8) bs])) ∧
    (∀ (u : qiniuUploader) (p : String) (net : Net) (e : Err),
      p ≠ "" → net.deleteErr p = some e →
      Qiniu.Delete u p net =
        (Except.error (.wrap "删除七牛云文件失败" e), [Eff.netDelete p])) ∧
    (∀ (cfg : AliyunConfig) (sdk : AliCtor) (e : Err),
      cfg.Endpoint ≠ "" → cfg.AccessKeyID ≠ "" → cfg.AccessKeySecret ≠ "" →
      cfg.BucketName ≠ "" → sdk.clientErr = none → sdk.bucketErr = some e →
      Aliyun.New cfg sdk = .error (.wrap "failed to get bucket" e)) ∧
    (∀ (u : AliUploader) (fh : FileHeader) (y m d ts : Nat) (net : Net) (e : Err),
      fh.openErr = some e →
      Aliyun.UploadFile u (some fh) y m d ts net =
        (Except.error (.wrap "failed to open uploaded file" e), [])) ∧
    (∀ (u : AliUploader) (fh : FileHeader) (y m d ts : Nat) (net : Net) (e : Err),
      fh.openErr = none →
      fh.readErr.orElse
        (fun _ => net.putErr (Aliyun.generateObjectKey fh.Filename y m d ts) fh.bytes) =
        some e →
      Aliyun.UploadFile u (some fh) y m d ts net =
        (Except.error (.wrap "failed to upload file to OSS" e),
         [Eff.netPut (Aliyun.generateObjectKey fh.Filename y m d ts) fh.bytes])) ∧
    (∀ (u : AliUploader) (nm : String) (content : List Nat) (y m d ts : Nat)
        (net : Net) (e : Err), content ≠ [] →
      net.putErr (Aliyun.generateObjectKey nm y m d ts) content = some e →
      Aliyun.UploadBinary u nm content y m d ts net =
        (Except.error (.wrap "failed to upload binary to OSS" e),
         [Eff.netPut (Aliyun.generateObjectKey nm y m d ts) content])) ∧
    (∀ (u : AliUploader) (fn s : String) (y m d ts : Nat) (net : Net) (e : Err),
      s ≠ "" → b64DecodeString s = .error e →
      Aliyun.UploadBase64 u fn s y m d ts net =
        (Except.error (.wrap "failed to decode base64" e), [])) ∧
    (∀ (u : AliUploader) (p : String) (net : Net) (e : Err),
      p ≠ "" → net.deleteErr p = some e →
      Aliyun.Delete u p net =
        (Except.error (.wrap "failed to delete OSS object" e), [Eff.netDelete p])) ∧
    (∀ (cfg : TencentConfig) (sdk : CosCtor) (e : Err),
      cfg.SecretID ≠ "" → cfg.SecretKey ≠ "" → cfg.BucketName ≠ "" → cfg.Region ≠ "" →
      sdk.parseErr = some e →
      Tencent.New cfg sdk = (.error (.wrap "failed to parse COS URL" e), [])) ∧
    (∀ (cfg : TencentConfig) (sdk : CosCtor) (e : Err),
      cfg.SecretID ≠ "" → cfg.SecretKey ≠ "" → cfg.BucketName ≠ "" → cfg.Region ≠ "" →
      sdk.parseErr = none → sdk.headErr = some e →
      Tencent.New cfg sdk =
        (.error (.wrap "failed to connect to COS bucket" e), [Eff.netBucketHead])) ∧
    (∀ (u : TencentUploader) (fh : FileHeader) (y m d ts : Nat) (net : Net) (e : Err),
      fh.openErr = some e →
      Tencent.UploadFile u (some fh) y m d ts net =
        (Except.error (.wrap "failed to open uploaded file" e), [])) ∧
    (∀ (u : TencentUploader) (fh : FileHeader) (y m d ts : Nat) (net : Net) (e : Err),
      fh.openErr = none →
      fh.readErr.orElse
        (fun _ => net.putErr (Tencent.generateObjectKey fh.Filename y m d ts) fh.bytes) =
        some e →
      Tencent.UploadFile u (some fh) y m d ts net =
        (Except.error (.wrap "failed to upload file to COS" e),
         [Eff.netPut (Tencent.generateObjectKey fh.Filename y m d ts) fh.bytes])) ∧
    (∀ (u : TencentUploader) (nm : String) (content : List Nat) (y m d ts : Nat)
        (net : Net) (e : Err), content ≠ [] →
      net.putErr (Tencent.generateObjectKey nm y m d ts) content = some e →
      Tencent.UploadBinary u nm content y m d ts net =
        (Except.error (.wrap "failed to upload binary to COS" e),
         [Eff.netPut (Tencent.generateObjectKey nm y m d ts) content])) ∧
    (∀ (u : TencentUploader) (fn s : String) (y m d ts : Nat) (net : Net) (e : Err),
      s ≠ "" → b64DecodeString s = .error e →
      Tencent.UploadBase64 u fn s y m d ts net =
        (Except.error (.wrap "failed to decode base64" e), [])) ∧
    (∀ (u : TencentUploader) (p : String) (net : Net) (e : Err),
      p ≠ "" → net.deleteErr p = some e →
      Tencent.Delete u p net =
        (Except.error (.wrap "failed to delete COS object" e), [Eff.netDelete p])) := by
  refine ⟨?_, ?_, ?_, ?_, ?_, ?_, ?_, ?_, ?_, ?_, ?_, ?_, ?_, ?_, ?_, ?_, ?_, ?_, ?_,
    ?_, ?_, ?_, ?_, ?_, ?_, ?_, ?_, ?_⟩
  · intro u nm content y m d ts fs e hc hm
    have hlen : ¬ content.length = 0 := by simpa using hc
    simp [Local.UploadBinary, Local.generateFilePath, hlen, hm]
  · intro u nm content y m d ts fs e hc hm hw
    have hlen : ¬ content.length = 0 := by simpa using hc
    simp [Local.UploadBinary, Local.generateFilePath, hlen, hm, hw]
  · intro u nm content ts r8 net e hn hc hp
    have hlen : ¬ content.length = 0 := by simpa using hc
    simp [Qiniu.UploadBinary, hn, hlen, hp]
  · intro cfg sdk e h1 h2 h3 h4 hcl
    simp [Aliyun.New, h1, h2, h3, h4, hcl]
  · intro u fh y m d ts fs e ho
    simp [Local.UploadFile, ho]
  · intro u fh y m d ts fs e ho hm
    simp [Local.UploadFile, Local.generateFilePath, ho, hm]
  · intro u fh y m d ts fs e ho hm hcr
    simp [Local.UploadFile, Local.generateFilePath, ho, hm, hcr]
  · intro u fh y m d ts fs e ho hm hcr hcp
    simp [Local.UploadFile, Local.generateFilePath, ho, hm, hcr, hcp]
  · intro u fn s y m d ts fs e hs hd
    simp [Local.UploadBase64, hs, hd]
  · intro u p fs e hst hrm
    simp [Local.Delete, hst, hrm]
  · intro u fh ts r8 net e ho
    simp [Qiniu.UploadFile, ho]
  · intro u fh ts r8 net e ho hr
    simp [Qiniu.UploadFile, ho, hr]
  · intro u fn s ts r8 net e hf hs hd
    simp [Qiniu.UploadBase64, hf, hs, hd]
  · intro u fn s bs ts r8 net e hf hs hd hp
    simp [Qiniu.UploadBase64, hf, hs, hd, hp]
  · intro u p net e hp hdel
    simp [Qiniu.Delete, hp, hdel]
  · intro cfg sdk e h1 h2 h3 h4 hcl hbk
    simp [Aliyun.New, h1, h2, h3, h4, hcl, hbk]
  · intro u fh y m d ts net e ho
    simp [Aliyun.UploadFile, ho]
  · intro u fh y m d ts net e ho hput
    simp [Aliyun.UploadFile, ho, hput]
  · intro u nm content y m d ts net e hc hput
    have hlen : ¬ content.length = 0 := by simpa using hc
    simp [Aliyun.UploadBinary, hlen, hput]
  · intro u fn s y m d ts net e hs hd
    simp [Aliyun.UploadBase64, hs, hd]
  · intro u p net e hp hdel
    simp [Aliyun.Delete, hp, hdel]
  · intro cfg sdk e h1 h2 h3 h4 hpar
    simp [Tencent.New, h1, h2, h3, h4, hpar]
  · intro cfg sdk e h1 h2 h3 h4 hpar hhd
    simp [Tencent.New, h1, h2, h3, h4, hpar, hhd]
  · intro u fh y m d ts net e ho
    simp [Tencent.UploadFile, ho]
  · intro u fh y m d ts net e ho hput
    simp [Tencent.UploadFile, ho, hput]
  · intro u nm content y m d ts net e hc hput
    have hlen : ¬ content.length = 0 := by simpa using hc
    simp [Tencent.UploadBinary, hlen, hput]
  · intro u fn s y m d ts net e hs hd
    simp [Tencent.UploadBase64, hs, hd]
  · intro u p net e hp hdel
    simp [Tencent.Delete, hp, hdel]

/-- C5 witness: every propagation clause of claim_C5_amended at a concrete
input, each hypothesis discharged. -/
theorem claim_C5_witness :
    Local.UploadBinary ⟨"b"⟩ "a.txt" [1] 2025 10 12 7 fsMkdirBoom =
      (Except.error (.wrap "failed to generate file path"
          (.wrap "failed to create storage directory" (Err.sdk "mkdir"))),
       [Eff.mkdirAll (filepathJoin ["b", goDateFormat 2025 10 12])]) ∧
    (Local.UploadBinary ⟨"b"⟩ "a.txt" [1] 2025 10 12 7 fsWriteBoom).1 =
      Except.error (.wrap "failed to write file" (Err.sdk "write")) ∧
    Qiniu.UploadBinary ⟨"ak", "sk", "bkt", "d", none⟩ "a.txt" [1] 7 "deadbeef" netPutBoom =
      (Except.error (.wrap "七牛云上传失败" (Err.sdk "put")),
       [Eff.netPut (Qiniu.generateUniqueKey "a.txt" 7 "deadbeef") [1]]) ∧
    Aliyun.New ⟨"oss.x.com", "id", "secret", "bkt", ""⟩ ⟨some (Err.sdk "dns"), none⟩ =
      .error (.wrap "failed to create OSS client" (Err.sdk "dns")) ∧
    Local.UploadFile ⟨"b"⟩ (some fhOpenBoom) 2025 10 12 7 fsAllOk =
      (Except.error (.wrap "failed to open uploaded file" (Err.sdk "open")), []) ∧
    Local.UploadFile ⟨"b"⟩ (some fhOk) 2025 10 12 7 fsMkdirBoom =
      (Except.error (.wrap "failed to generate file path"
          (.wrap "failed to create storage directory" (Err.sdk "mkdir"))),
       [Eff.mkdirAll (filepathJoin ["b", goDateFormat 2025 10 12])]) ∧
    (Local.UploadFile ⟨"b"⟩ (some fhOk) 2025 10 12 7 fsCreateBoom).1 =
      Except.error (.wrap "failed to create destination file" (Err.sdk "create")) ∧
    (Local.UploadFile ⟨"b"⟩ (some fhOk) 2025 10 12 7 fsCopyBoom).1 =
      Except.error (.wrap "failed to save file" (Err.sdk "copy")) ∧
    Local.UploadBase64 ⟨"b"⟩ "a.txt" "!!!!" 2025 10 12 7 fsAllOk =
      (Except.error (.wrap "failed to decode base64" b64Corrupt), []) ∧
    Local.Delete ⟨"b"⟩ "x.txt" fsRemoveBoom =
      (Except.error (.wrap "failed to delete file" (Err.sdk "rm")),
       [Eff.statPath (filepathJoin ["b", "x.txt"]),
        Eff.removePath (filepathJoin ["b", "x.txt"])]) ∧
    Qiniu.UploadFile ⟨"ak", "sk", "bkt", "d", none⟩ (some fhOpenBoom) 7 "deadbeef" netAllOk =
      (Except.error (.wrap "打开文件失败" (Err.sdk "open")), []) ∧
    Qiniu.UploadFile ⟨"ak", "sk", "bkt", "d", none⟩ (some fhReadBoom) 7 "deadbeef" netAllOk =
      (Except.error (.wrap "读取文件失败" (Err.sdk "read")), []) ∧
    Qiniu.UploadBase64 ⟨"ak", "sk", "bkt", "d", none⟩ "a.txt" "!!!!" 7 "deadbeef" netAllOk =
      (Except.error (.wrap "base64解码失败" b64Corrupt), []) ∧
    Qiniu.UploadBase64 ⟨"ak", "sk", "bkt", "d", none⟩ "a.txt" "aA==" 7 "deadbeef" netPutBoom =
      (Except.error (.wrap "七牛云上传失败" (Err.sdk "put")),
       [Eff.netPut (Qiniu.generateUniqueKey "a.txt" 7 "deadbeef") [104]]) ∧
    Qiniu.Delete ⟨"ak", "sk", "bkt", "d", none⟩ "k.txt" netDeleteBoom =
      (Except.error (.wrap "删除七牛云文件失败" (Err.sdk "del")), [Eff.netDelete "k.txt"]) ∧
    Aliyun.New ⟨"oss.x.com", "id", "secret", "bkt", ""⟩ ⟨none, some (Err.sdk "bucket")⟩ =
      .error (.wrap "failed to get bucket" (Err.sdk "bucket")) ∧
    Aliyun.UploadFile ⟨⟨"oss.x.com", "id", "secret", "bkt", ""⟩, "https://bkt.oss.x.com"⟩
        (some fhOpenBoom) 2025 10 12 7 netAllOk =
      (Except.error (.wrap "failed to open uploaded file" (Err.sdk "open")), []) ∧
    Aliyun.UploadFile ⟨⟨"oss.x.com", "id", "secret", "bkt", ""⟩, "https://bkt.oss.x.com"⟩
        (some fhOk) 2025 10 12 7 netPutBoom =
      (Except.error (.wrap "failed to upload file to OSS" (Err.sdk "put")),
       [Eff.netPut (Aliyun.generateObjectKey "a.txt" 2025 10 12 7) [1]]) ∧
    Aliyun.UploadBinary ⟨⟨"oss.x.com", "id", "secret", "bkt", ""⟩, "https://bkt.oss.x.com"⟩
        "a.txt" [1] 2025 10 12 7 netPutBoom =
      (Except.error (.wrap "failed to upload binary to OSS" (Err.sdk "put")),
       [Eff.netPut (Aliyun.generateObjectKey "a.txt" 2025 10 12 7) [1]]) ∧
    Aliyun.UploadBase64 ⟨⟨"oss.x.com", "id", "secret", "bkt", ""⟩, "https://bkt.oss.x.com"⟩
        "a.txt" "!!!!" 2025 10 12 7 netAllOk =
      (Except.error (.wrap "failed to decode base64" b64Corrupt), []) ∧
    Aliyun.Delete ⟨⟨"oss.x.com", "id", "secret", "bkt", ""⟩, "https://bkt.oss.x.com"⟩
        "k.txt" netDeleteBoom =
      (Except.error (.wrap "failed to delete OSS object" (Err.sdk "del")),
       [Eff.netDelete "k.txt"]) ∧
    Tencent.New ⟨"sid", "skey", "bkt", "ap-x", ""⟩ ⟨some (Err.sdk "url"), none⟩ =
      (.error (.wrap "failed to parse COS URL" (Err.sdk "url")), []) ∧
    Tencent.New ⟨"sid", "skey", "bkt", "ap-x", ""⟩ ⟨none, some (Err.sdk "head")⟩ =
      (.error (.wrap "failed to connect to COS bucket" (Err.sdk "head")),
       [Eff.netBucketHead]) ∧
    Tencent.UploadFile ⟨⟨"sid", "skey", "bkt", "ap-x", ""⟩⟩ (some fhOpenBoom)
        2025 10 12 7 netAllOk =
      (Except.error (.wrap "failed to open uploaded file" (Err.sdk "open")), []) ∧
    Tencent.UploadFile ⟨⟨"sid", "skey", "bkt", "ap-x", ""⟩⟩ (some fhOk)
        2025 10 12 7 netPutBoom =
      (Except.error (.wrap "failed to upload file to COS" (Err.sdk "put")),
       [Eff.netPut (Tencent.generateObjectKey "a.txt" 2025 10 12 7) [1]]) ∧
    Tencent.UploadBinary ⟨⟨"sid", "skey", "bkt", "ap-x", ""⟩⟩ "a.txt" [1]
        2025 10 12 7 netPutBoom =
      (Except.error (.wrap "failed to upload binary to COS" (Err.sdk "put")),
       [Eff.netPut (Tencent.generateObjectKey "a.txt" 2025 10 12 7) [1]]) ∧
    Tencent.UploadBase64 ⟨⟨"sid", "skey", "bkt", "ap-x", ""⟩⟩ "a.txt" "!!!!"
        2025 10 12 7 netAllOk =
      (Except.error (.wrap "failed to decode base64" b64Corrupt), []) ∧
    Tencent.Delete ⟨⟨"sid", "skey", "bkt", "ap-x", ""⟩⟩ "k.txt" netDeleteBoom =
      (Except.error (.wrap "failed to delete COS object" (Err.sdk "del")),
       [Eff.netDelete "k.txt"]) := by
  obtain ⟨p1, p2, p3, p4, p5, p6, p7, p8, p9, p10, p11, p12, p13, p14, p15, p16, p17,
    p18, p19, p20, p21, p22, p23, p24, p25, p26, p27, p28⟩ := claim_C5_amended
  exact ⟨p1 ⟨"b"⟩ "a.txt" [1] 2025 10 12 7 fsMkdirBoom (Err.sdk "mkdir") (by decide) rfl,
    p2 ⟨"b"⟩ "a.txt" [1] 2025 10 12 7 fsWriteBoom (Err.sdk "write") (by decide) rfl rfl,
    p3 ⟨"ak", "sk", "bkt", "d", none⟩ "a.txt" [1] 7 "deadbeef" netPutBoom (Err.sdk "put")
      (by decide) (by decide) rfl,
    p4 ⟨"oss.x.com", "id", "secret", "bkt", ""⟩ ⟨some (Err.sdk "dns"), none⟩
      (Err.sdk "dns") (by decide) (by decide) (by decide) (by decide) rfl,
    p5 ⟨"b"⟩ fhOpenBoom 2025 10 12 7 fsAllOk (Err.sdk "open") rfl,
    p6 ⟨"b"⟩ fhOk 2025 10 12 7 fsMkdirBoom (Err.sdk "mkdir") rfl rfl,
    p7 ⟨"b"⟩ fhOk 2025 10 12 7 fsCreateBoom (Err.sdk "create") rfl rfl rfl,
    p8 ⟨"b"⟩ fhOk 2025 10 12 7 fsCopyBoom (Err.sdk "copy") rfl rfl rfl rfl,
    p9 ⟨"b"⟩ "a.txt" "!!!!" 2025 10 12 7 fsAllOk b64Corrupt (by decide) rfl,
    p10 ⟨"b"⟩ "x.txt" fsRemoveBoom (Err.sdk "rm") rfl rfl,
    p11 ⟨"ak", "sk", "bkt", "d", none⟩ fhOpenBoom 7 "deadbeef" netAllOk
      (Err.sdk "open") rfl,
    p12 ⟨"ak", "sk", "bkt", "d", none⟩ fhReadBoom 7 "deadbeef" netAllOk
      (Err.sdk "read") rfl rfl,
    p13 ⟨"ak", "sk", "bkt", "d", none⟩ "a.txt" "!!!!" 7 "deadbeef" netAllOk b64Corrupt
      (by decide) (by decide) rfl,
    p14 ⟨"ak", "sk", "bkt", "d", none⟩ "a.txt" "aA==" [104] 7 "deadbeef" netPutBoom
      (Err.sdk "put") (by decide) (by decide) rfl rfl,
    p15 ⟨"ak", "sk", "bkt", "d", none⟩ "k.txt" netDeleteBoom (Err.sdk "del")
      (by decide) rfl,
    p16 ⟨"oss.x.com", "id", "secret", "bkt", ""⟩ ⟨none, some (Err.sdk "bucket")⟩
      (Err.sdk "bucket") (by decide) (by decide) (by decide) (by decide) rfl rfl,
    p17 ⟨⟨"oss.x.com", "id", "secret", "bkt", ""⟩, "https://bkt.oss.x.com"⟩ fhOpenBoom
      2025 10 12 7 netAllOk (Err.sdk "open") rfl,
    p18 ⟨⟨"oss.x.com", "id", "secret", "bkt", ""⟩, "https://bkt.oss.x.com"⟩ fhOk
      2025 10 12 7 netPutBoom (Err.sdk "put") rfl rfl,
    p19 ⟨⟨"oss.x.com", "id", "secret", "bkt", ""⟩, "https://bkt.oss.x.com"⟩ "a.txt" [1]
      2025 10 12 7 netPutBoom (Err.sdk "put") (by decide) rfl,
    p20 ⟨⟨"oss.x.com", "id", "secret", "bkt", ""⟩, "https://bkt.oss.x.com"⟩ "a.txt"
      "!!!!" 2025 10 12 7 netAllOk b64Corrupt (by decide) rfl,
    p21 ⟨⟨"oss.x.com", "id", "secret", "bkt", ""⟩, "https://bkt.oss.x.com"⟩ "k.txt"
      netDeleteBoom (Err.sdk "del") (by decide) rfl,
    p22 ⟨"sid", "skey", "bkt", "ap-x", ""⟩ ⟨some (Err.sdk "url"), none⟩ (Err.sdk "url")
      (by decide) (by decide) (by decide) (by decide) rfl,
    p23 ⟨"sid", "skey", "bkt", "ap-x", ""⟩ ⟨none, some (Err.sdk "head")⟩ (Err.sdk "head")
      (by decide) (by decide) (by decide) (by decide) rfl rfl,
    p24 ⟨⟨"sid", "skey", "bkt", "ap-x", ""⟩⟩ fhOpenBoom 2025 10 12 7 netAllOk
      (Err.sdk "open") rfl,
    p25 ⟨⟨"sid", "skey", "bkt", "ap-x", ""⟩⟩ fhOk 2025 10 12 7 netPutBoom
      (Err.sdk "put") rfl rfl,
    p26 ⟨⟨"sid", "skey", "bkt", "ap-x", ""⟩⟩ "a.txt" [1] 2025 10 12 7 netPutBoom
      (Err.sdk "put") (by decide) rfl,
    p27 ⟨⟨"sid", "skey", "bkt", "ap-x", ""⟩⟩ "a.txt" "!!!!" 2025 10 12 7 netAllOk
      b64Corrupt (by decide) rfl,
    p28 ⟨⟨"sid", "skey", "bkt", "ap-x", ""⟩⟩ "k.txt" netDeleteBoom (Err.sdk "del")
      (by decide) rfl⟩

/-- C3 counterexample: the claim says UploadFile behaves identically to
UploadBinary on the bytes read, including rejecting empty content; but Local
UploadFile writes the stream directly without any emptiness check, so an empty
stream succeeds while UploadBinary on the empty byte list fails. -/
theorem claim_C3_counterexample :
    (Local.UploadFile ⟨"b"⟩ (some ⟨"a.txt", [], none, none⟩) 2025 10 12 7 fsAllOk).1.isOk
      = true ∧
    (Local.UploadBinary ⟨"b"⟩ "a.txt" [] 2025 10 12 7 fsAllOk).1 =
      Except.error (Err.msg "content cannot be empty") := ⟨rfl, rfl⟩

/-- C3 (amended): every backend rejects a nil file header with InvalidInput
and no I/O; only qiniu's UploadFile reads the stream fully and delegates to
UploadBinary; Local, aliyun and tencent write or stream the opened file
directly, and in particular accept an empty stream that their UploadBinary
would reject. -/
theorem claim_C3_amended :
    (∀ (u : LocalUploader) (y m d ts : Nat) (fs : FS),
      rejectsInvalid (Local.UploadFile u none y m d ts fs)) ∧
    (∀ (u : qiniuUploader) (ts : Nat) (r8 : String) (net : Net),
      rejectsInvalid (Qiniu.UploadFile u none ts r8 net)) ∧
    (∀ (u : AliUploader) (y m d ts : Nat) (net : Net),
      rejectsInvalid (Aliyun.UploadFile u none y m d ts net)) ∧
    (∀ (u : TencentUploader) (y m d ts : Nat) (net : Net),
      rejectsInvalid (Tencent.UploadFile u none y m d ts net)) ∧
    (∀ (u : qiniuUploader) (fh : FileHeader) (ts : Nat) (r8 : String) (net : Net),
      fh.openErr = none → fh.readErr = none →
      Qiniu.UploadFile u (some fh) ts r8 net =
        Qiniu.UploadBinary u fh.Filename fh.bytes ts r8 net) ∧
    (∀ (u : LocalUploader) (nm : String) (y m d ts : Nat),
      (Local.UploadFile u (some ⟨nm, [], none, none⟩) y m d ts fsAllOk).1.isOk = true) ∧
    (∀ (u : AliUploader) (nm : String) (y m d ts : Nat),
      (Aliyun.UploadFile u (some ⟨nm, [], none, none⟩) y m d ts netAllOk).1.isOk = true) ∧
    (∀ (u : TencentUploader) (nm : String) (y m d ts : Nat),
      (Tencent.UploadFile u (some ⟨nm, [], none, none⟩) y m d ts netAllOk).1.isOk = true) := by
  refine ⟨?_, ?_, ?_, ?_, ?_, ?_, ?_, ?_⟩
  · exact fun u y m d ts fs =>
      ⟨rfl, .msg "file header cannot be nil", rfl, classify_invalid _ (by decide)⟩
  · exact fun u ts r8 net =>
      ⟨rfl, .msg "文件头不能为空", rfl, classify_invalid _ (by decide)⟩
  · exact fun u y m d ts net =>
      ⟨rfl, .msg "file header cannot be nil", rfl, classify_invalid _ (by decide)⟩
  · exact fun u y m d ts net =>
      ⟨rfl, .msg "file header cannot be nil", rfl, classify_invalid _ (by decide)⟩
  · intro u fh ts r8 net ho hr
    simp only [Qiniu.UploadFile, ho, hr]
  · intro u nm y m d ts
    simp only [Local.UploadFile, Local.generateFilePath, fsAllOk, Option.orElse]
    split <;> rfl
  · intro u nm y m d ts
    rfl
  · intro u nm y m d ts
    rfl

/-- C3 witness: the qiniu delegation clause at a concrete header. -/
theorem claim_C3_witness :
    Qiniu.UploadFile ⟨"ak", "sk", "bkt", "d", none⟩ (some ⟨"a.txt", [1], none, none⟩)
        7 "deadbeef" netAllOk =
      Qiniu.UploadBinary ⟨"ak", "sk", "bkt", "d", none⟩ "a.txt" [1] 7 "deadbeef" netAllOk :=
  claim_C3_amended.2.2.2.2.1 ⟨"ak", "sk", "bkt", "d", none⟩ ⟨"a.txt", [1], none, none⟩
    7 "deadbeef" netAllOk rfl rfl

/-- C4 counterexample: "\n" is a non-empty base64 string decoding to the empty
byte list (Go's decoder skips newlines); qiniu UploadBase64 uploads an empty
object for it, while qiniu UploadBinary on the decoded (empty) bytes rejects
with InvalidInput, so UploadBase64 does not match UploadBinary on this edge. -/
theorem claim_C4_counterexample :
    Qiniu.UploadBase64 ⟨"ak", "sk", "bkt", "cdn.example.com", none⟩ "a.txt" "\n"
        7 "deadbeef" netAllOk =
      (Except.ok ("https://" ++ "cdn.example.com" ++ "/" ++
          Qiniu.generateUniqueKey "a.txt" 7 "deadbeef"),
       [Eff.netPut (Qiniu.generateUniqueKey "a.txt" 7 "deadbeef") []]) ∧
    Qiniu.UploadBinary ⟨"ak", "sk", "bkt", "cdn.example.com", none⟩ "a.txt" []
        7 "deadbeef" netAllOk =
      (Except.error (Err.msg "文件内容不能为空"), []) := ⟨rfl, rfl⟩

/-- C4 (amended): encoding then decoding is the identity on byte lists; on
Local, aliyun and tencent, UploadBase64 of any non-empty string that decodes
to X is exactly UploadBinary of X (same stored bytes, same locator, same
errors); on qiniu the same holds whenever X is non-empty, but a non-empty
base64 string decoding to empty bytes is uploaded rather than rejected (see
the counterexample). -/
theorem claim_C4_amended :
    (∀ bs : List Nat, (∀ x ∈ bs, x < 256) →
      b64DecodeString (b64Encode bs) = .ok bs) ∧
    (∀ bs : List Nat, bs ≠ [] → b64Encode bs ≠ "") ∧
    (∀ (u : LocalUploader) (fn s : String) (bs : List Nat) (y m d ts : Nat) (fs : FS),
      s ≠ "" → b64DecodeString s = .ok bs →
      Local.UploadBase64 u fn s y m d ts fs = Local.UploadBinary u fn bs y m d ts fs) ∧
    (∀ (u : AliUploader) (fn s : String) (bs : List Nat) (y m d ts : Nat) (net : Net),
      s ≠ "" → b64DecodeString s = .ok bs →
      Aliyun.UploadBase64 u fn s y m d ts net = Aliyun.UploadBinary u fn bs y m d ts net) ∧
    (∀ (u : TencentUploader) (fn s : String) (bs : List Nat) (y m d ts : Nat) (net : Net),
      s ≠ "" → b64DecodeString s = .ok bs →
      Tencent.UploadBase64 u fn s y m d ts net = Tencent.UploadBinary u fn bs y m d ts net) ∧
    (∀ (u : qiniuUploader) (fn s : String) (bs : List Nat) (ts : Nat) (r8 : String)
        (net : Net), s ≠ "" → b64DecodeString s = .ok bs → bs ≠ [] →
      Qiniu.UploadBase64 u fn s ts r8 net = Qiniu.UploadBinary u fn bs ts r8 net) := by
  refine ⟨b64DecodeString_encode, b64Encode_ne_empty, ?_, ?_, ?_, ?_⟩
  · intro u fn s bs y m d ts fs hs hd
    simp only [Local.UploadBase64, hs, hd]
    simp
  · intro u fn s bs y m d ts net hs hd
    simp only [Aliyun.UploadBase64, hs, hd]
    simp
  · intro u fn s bs y m d ts net hs hd
    simp only [Tencent.UploadBase64, hs, hd]
    simp
  · intro u fn s bs ts r8 net hs hd hbs
    by_cases hf : fn = ""
    · subst hf; rfl
    · have hlen : ¬ bs.length = 0 := by simpa using hbs
      simp only [Qiniu.UploadBase64, Qiniu.UploadBinary, hf, hs, hd, hlen]
      simp

/-- C4 witness: round trip on a concrete byte list and the delegation clauses
at a concrete base64 string. -/
theorem claim_C4_witness :
    b64DecodeString (b64Encode [104, 105]) = .ok [104, 105] ∧
    Local.UploadBase64 ⟨"b"⟩ "a.txt" "aA==" 2025 10 12 7 fsAllOk =
      Local.UploadBinary ⟨"b"⟩ "a.txt" [104] 2025 10 12 7 fsAllOk ∧
    Qiniu.UploadBase64 ⟨"ak", "sk", "bkt", "d", none⟩ "a.txt" "aA==" 7 "r8r8r8r8" netAllOk =
      Qiniu.UploadBinary ⟨"ak", "sk", "bkt", "d", none⟩ "a.txt" [104] 7 "r8r8r8r8" netAllOk :=
  ⟨claim_C4_amended.1 [104, 105] (by decide),
   claim_C4_amended.2.2.1 ⟨"b"⟩ "a.txt" "aA==" [104] 2025 10 12 7 fsAllOk (by decide) rfl,
   claim_C4_amended.2.2.2.2.2 ⟨"ak", "sk", "bkt", "d", none⟩ "a.txt" "aA==" [104]
     7 "r8r8r8r8" netAllOk (by decide) rfl (by decide)⟩

/- ---------- helper lemmas for the key/path claims ---------- -/

theorem aliKey_join (nm : String) (y m d ts : Nat) (h : '/' ∉ nm.data) :
    Aliyun.generateObjectKey nm y m d ts =
      goDateFormat y m d ++ "/" ++ Local.uniqueName nm ts := by
  show filepathJoin [goDateFormat y m d, Local.uniqueName nm ts] = _
  exact join2_good _ _ (goodPath_goDateFormat y m d) (uniqueName_goodPath nm ts h)

theorem cosKey_join (nm : String) (y m d ts : Nat) (h : '/' ∉ nm.data) :
    Tencent.generateObjectKey nm y m d ts =
      goDateFormat y m d ++ "/" ++ Local.uniqueName nm ts := by
  show filepathJoin [goDateFormat y m d, Local.uniqueName nm ts] = _
  exact join2_good _ _ (goodPath_goDateFormat y m d) (uniqueName_goodPath nm ts h)

theorem uniqueName_empty (ts : Nat) : Local.uniqueName "" ts = "._" ++ natStr ts := by
  show trimSuffix (filepathBase "") (filepathExt "") ++ "_" ++ natStr ts ++ filepathExt "" = _
  rw [show filepathExt "" = "" from rfl, show filepathBase "" = "." from rfl]
  rw [show trimSuffix "." "" = "." from rfl]
  rw [strAppendEmpty]
  rw [show ("." ++ "_" : String) = "._" from rfl]

theorem goodPath_dotUnderscore (ts : Nat) : goodPath ("._" ++ natStr ts) := by
  have hns : '/' ∉ ("._" ++ natStr ts).data := by
    rw [strAppendData]
    intro hm
    rcases List.mem_append.mp hm with h | h
    · revert h; decide
    · exact (natStr_chars ts '/' h).1 rfl
  intro s hs
  rw [splitSlash_noSlash _ hns, List.mem_singleton] at hs
  subst hs
  apply goodSeg_of_underscore
  rw [strAppendData]
  exact List.mem_append.mpr (Or.inl (by decide))

/- ---------- claims C2, C8, C10 ---------- -/

/-- C2 counterexample: the qiniu key generated at upload time is
`<unixNano>_<uuid8><ext>` with no date path at all, so it does not have the
spec's `YYYY/MM/DD/...` shape (it contains no slash). -/
theorem claim_C2_counterexample :
    ¬ specDatePathShaped (Qiniu.generateUniqueKey "a.txt" 1745 "deadbeef") := by
  rintro ⟨y, m, d, rest, h⟩
  have hm : '/' ∈ (Qiniu.generateUniqueKey "a.txt" 1745 "deadbeef").data := by
    rw [h, dataAppendSlash]
    simp
  revert hm
  decide

/-- C2 (amended): the aliyun and tencent object keys have exactly the spec's
`<YYYY>/<MM>/<DD>/<base>_<unixNano><ext>` form for every plain filename (no
slash, non-empty); the qiniu key instead is `<unixNano>_<uuid8><ext>` with no
date path and no base name (see the counterexample). -/
theorem claim_C2_amended (nm : String) (y m d ts : Nat)
    (h1 : '/' ∉ nm.data) (h2 : nm ≠ "") :
    Aliyun.generateObjectKey nm y m d ts = specRemoteKeyOf nm y m d ts ∧
    Tencent.generateObjectKey nm y m d ts = specRemoteKeyOf nm y m d ts := by
  have hb : filepathBase nm = nm := base_eq nm h1 h2
  constructor
  · rw [aliKey_join nm y m d ts h1]
    show goDateFormat y m d ++ "/" ++
      (trimSuffix (filepathBase nm) (filepathExt nm) ++ "_" ++ natStr ts ++ filepathExt nm) = _
    rw [hb]
    unfold specRemoteKeyOf
    simp [strAppendAssoc]
  · rw [cosKey_join nm y m d ts h1]
    show goDateFormat y m d ++ "/" ++
      (trimSuffix (filepathBase nm) (filepathExt nm) ++ "_" ++ natStr ts ++ filepathExt nm) = _
    rw [hb]
    unfold specRemoteKeyOf
    simp [strAppendAssoc]

/-- C2 witness: the amended claim at a concrete filename and time. -/
theorem claim_C2_witness :
    Aliyun.generateObjectKey "a.txt" 2025 7 1 99 = specRemoteKeyOf "a.txt" 2025 7 1 99 ∧
    Tencent.generateObjectKey "a.txt" 2025 7 1 99 = specRemoteKeyOf "a.txt" 2025 7 1 99 :=
  claim_C2_amended "a.txt" 2025 7 1 99 (by decide) (by decide)

/-- C8: on a clean relative base path, a successful Local upload writes the
file at `<basePath>/<YYYY>/<MM>/<DD>/<base>_<unixNano><ext>`, the returned
locator is that path relative to basePath, and basePath defaults to
"storage/uploads" when the configured value is empty. -/
theorem claim_C8 (cfg : LocalConfig) (nm : String) (content : List Nat)
    (y m d ts : Nat) (fs : FS)
    (hc : content ≠ [])
    (hbp : goodPath (Local.New cfg).basePath)
    (hnm : '/' ∉ nm.data)
    (hmk : fs.mkdirAllErr ((Local.New cfg).basePath ++ "/" ++ goDateFormat y m d) = none)
    (hwr : fs.writeFileErr ((Local.New cfg).basePath ++ "/" ++ goDateFormat y m d ++ "/" ++
      Local.uniqueName nm ts) = none) :
    Local.UploadBinary (Local.New cfg) nm content y m d ts fs =
      (Except.ok (goDateFormat y m d ++ "/" ++ Local.uniqueName nm ts),
       [Eff.mkdirAll ((Local.New cfg).basePath ++ "/" ++ goDateFormat y m d),
        Eff.writeFile ((Local.New cfg).basePath ++ "/" ++ goDateFormat y m d ++ "/" ++
          Local.uniqueName nm ts) content]) ∧
    (cfg.BasePath = "" → (Local.New cfg).basePath = "storage/uploads") := by
  constructor
  · have hdate := goodPath_goDateFormat y m d
    have hun := uniqueName_goodPath nm ts hnm
    have hlen : ¬ content.length = 0 := by simpa using hc
    have hjoin1 : filepathJoin [(Local.New cfg).basePath, goDateFormat y m d] =
        (Local.New cfg).basePath ++ "/" ++ goDateFormat y m d :=
      join2_good _ _ hbp hdate
    have hgood1 : goodPath ((Local.New cfg).basePath ++ "/" ++ goDateFormat y m d) :=
      goodPath_append _ _ hbp hdate
    have hjoin2 : filepathJoin
        [(Local.New cfg).basePath ++ "/" ++ goDateFormat y m d, Local.uniqueName nm ts] =
        (Local.New cfg).basePath ++ "/" ++ goDateFormat y m d ++ "/" ++ Local.uniqueName nm ts :=
      join2_good _ _ hgood1 hun
    have hassoc : (Local.New cfg).basePath ++ "/" ++ goDateFormat y m d ++ "/" ++
        Local.uniqueName nm ts =
        (Local.New cfg).basePath ++ "/" ++ (goDateFormat y m d ++ "/" ++ Local.uniqueName nm ts) := by
      simp [strAppendAssoc]
    have hrel : filepathRel (Local.New cfg).basePath
        ((Local.New cfg).basePath ++ "/" ++ goDateFormat y m d ++ "/" ++ Local.uniqueName nm ts) =
        some (goDateFormat y m d ++ "/" ++ Local.uniqueName nm ts) := by
      rw [hassoc]
      exact rel_good _ _ hbp (goodPath_append _ _ hdate hun)
    simp only [Local.UploadBinary, Local.generateFilePath, hjoin1, hmk, hjoin2, hwr, hrel, hlen,
      if_false]
    simp
  · intro h
    simp [Local.New, h]

/-- C8 witness: the theorem at the default base path with a concrete file. -/
theorem claim_C8_witness :
    (Local.UploadBinary (Local.New ⟨""⟩) "a.txt" [104] 2025 10 12 7 fsAllOk =
      (Except.ok (goDateFormat 2025 10 12 ++ "/" ++ Local.uniqueName "a.txt" 7),
       [Eff.mkdirAll ((Local.New ⟨""⟩).basePath ++ "/" ++ goDateFormat 2025 10 12),
        Eff.writeFile ((Local.New ⟨""⟩).basePath ++ "/" ++ goDateFormat 2025 10 12 ++ "/" ++
          Local.uniqueName "a.txt" 7) [104]])) ∧
    ((⟨""⟩ : LocalConfig).BasePath = "" → (Local.New ⟨""⟩).basePath = "storage/uploads") :=
  claim_C8 ⟨""⟩ "a.txt" [104] 2025 10 12 7 fsAllOk (by decide) (by decide) (by decide) rfl rfl

/-- C10 counterexample: with an empty filename the generated object name is
`._<unixNano>` (filepath.Base of the empty string is "."), not the claimed
`_<unixNano>` with no base name. -/
theorem claim_C10_counterexample :
    Aliyun.generateObjectKey "" 2025 10 12 7 =
      goDateFormat 2025 10 12 ++ "/" ++ ("._" ++ natStr 7) ∧
    Aliyun.generateObjectKey "" 2025 10 12 7 ≠
      goDateFormat 2025 10 12 ++ "/" ++ ("_" ++ natStr 7) := by
  constructor <;> decide

/-- C10 (amended): UploadBinary (and UploadBase64) with an empty filename and
non-empty content succeeds on Local, aliyun and tencent, but the generated
name is `._<unixNano>` (base name "." from filepath.Base("")), not
`_<unixNano>`; only qiniu rejects the empty filename. -/
theorem claim_C10_amended :
    (∀ y m d ts : Nat, Aliyun.generateObjectKey "" y m d ts =
      goDateFormat y m d ++ "/" ++ ("._" ++ natStr ts)) ∧
    (∀ y m d ts : Nat, Tencent.generateObjectKey "" y m d ts =
      goDateFormat y m d ++ "/" ++ ("._" ++ natStr ts)) ∧
    (∀ y m d ts : Nat, (Local.generateFilePath (Local.New ⟨""⟩) "" y m d ts fsAllOk).1 =
      Except.ok ("storage/uploads" ++ "/" ++ goDateFormat y m d ++ "/" ++ ("._" ++ natStr ts))) ∧
    ((Local.UploadBinary (Local.New ⟨""⟩) "" [104] 2025 10 12 7 fsAllOk).1.isOk = true) ∧
    (∀ u : AliUploader,
      (Aliyun.UploadBinary u "" [104] 2025 10 12 7 netAllOk).1.isOk = true) ∧
    (∀ u : TencentUploader,
      (Tencent.UploadBinary u "" [104] 2025 10 12 7 netAllOk).1.isOk = true) ∧
    (∀ (u : qiniuUploader) (content : List Nat) (ts : Nat) (r8 : String) (net : Net),
      Qiniu.UploadBinary u "" content ts r8 net =
        (Except.error (Err.msg "文件名不能为空"), [])) ∧
    (∀ (u : qiniuUploader) (s : String) (ts : Nat) (r8 : String) (net : Net),
      Qiniu.UploadBase64 u "" s ts r8 net =
        (Except.error (Err.msg "文件名不能为空"), [])) := by
  refine ⟨?_, ?_, ?_, ?_, ?_, ?_, ?_, ?_⟩
  · intro y m d ts
    rw [aliKey_join "" y m d ts (by decide), uniqueName_empty]
  · intro y m d ts
    rw [cosKey_join "" y m d ts (by decide), uniqueName_empty]
  · intro y m d ts
    have hb : (Local.New ⟨""⟩).basePath = "storage/uploads" := rfl
    have hj1 : filepathJoin ["storage/uploads", goDateFormat y m d] =
        "storage/uploads" ++ "/" ++ goDateFormat y m d :=
      join2_good _ _ (by decide) (goodPath_goDateFormat y m d)
    have hj2 : filepathJoin ["storage/uploads" ++ "/" ++ goDateFormat y m d,
        "._" ++ natStr ts] =
        "storage/uploads" ++ "/" ++ goDateFormat y m d ++ "/" ++ ("._" ++ natStr ts) :=
      join2_good _ _
        (goodPath_append _ _ (by decide) (goodPath_goDateFormat y m d))
        (goodPath_dotUnderscore ts)
    simp only [Local.generateFilePath, hb, hj1]
    show Except.ok (filepathJoin ["storage/uploads" ++ "/" ++ goDateFormat y m d,
      Local.uniqueName "" ts]) = _
    rw [uniqueName_empty, hj2]
  · rfl
  · intro u
    rfl
  · intro u
    rfl
  · intro u content ts r8 net
    rfl
  · intro u s ts r8 net
    rfl
